import Mathlib

/-!
Verification of the rotables inventory engine
(`src/rotables/state/matrix_state.py` and collaborators) against its
natural-language specification.

The embedding below translates the Python source into Lean definitions:
Python dicts of stocks become total functions `KitType → Int` (reads in the
source always use `.get(kit, 0)`), the lazily grown node cache
`self.nodes : Dict[(code, hour), InventoryNode]` becomes a function
`String × Nat → Option (KitType → Int)`, Python exceptions (`KeyError`,
`ValueError`) become `Option` failure, and the `movements_by_origin_hour` /
`movements_by_destination_hour` indexes — which the source keeps in sync with
the append-only `movements` list — are modelled as filters of that list.
-/

namespace Rotables

/-- Last playable global hour index, 0-based: day 0..29, hour 0..23 give
0..719 (`src/rotables/state/time_index.py`). -/
def MAX_HOUR : Nat := 30 * 24 - 1

/-- Convert `(day, hour)` into a single global hour index
(`time_index.to_global_hour`). -/
def toGlobalHour (day hour : Nat) : Nat := day * 24 + hour

/-- The four kit types (`src/rotables/models/kit_types.py`). -/
inductive KitType where
  | A_FIRST_CLASS
  | B_BUSINESS
  | C_PREMIUM_ECONOMY
  | D_ECONOMY
deriving DecidableEq, Repr

/-- Replacement lead time in hours, the fourth constant of each enum member
of `KitType` in the source. -/
def KitType.replacement_lead_time_hours : KitType → Nat
  | .A_FIRST_CLASS => 48
  | .B_BUSINESS => 36
  | .C_PREMIUM_ECONOMY => 24
  | .D_ECONOMY => 12

/-- The enum members in declaration order; Python's `for kit in KitType`
iterates them in this order. -/
def KitType.all : List KitType :=
  [.A_FIRST_CLASS, .B_BUSINESS, .C_PREMIUM_ECONOMY, .D_ECONOMY]

/-- Airport model (`src/rotables/models/airport.py`), restricted to the
fields the inventory engine reads.  Stock maps are total functions because
every read in the source defaults missing keys to `0`. -/
structure Airport where
  code : String
  is_hub : Bool
  initial_stock_per_kit : KitType → Int
  processing_time_hours : KitType → Nat

/-- Aircraft type model (`src/rotables/models/aircraft.py`), restricted to
the kit-capacity table the engine reads. -/
structure AircraftType where
  code : String
  kit_capacity_per_class : KitType → Int

/-- Status of a live flight (`src/rotables/models/flight.py`). -/
inductive FlightStatus where
  | SCHEDULED
  | CHECKED_IN
  | LANDED
deriving DecidableEq, Repr

/-- Live flight instance (`src/rotables/models/flight.py`), with the fields
the engine and the forecaster read.  Passenger maps are association lists so
that the source's emptiness test (`actual or planned or \x7b\x7d`) is
representable. -/
structure FlightInstance where
  flight_id : String
  origin : String
  destination : String
  aircraft_type_code : String
  planned_departure : Nat × Nat
  planned_arrival : Nat × Nat
  actual_departure : Option (Nat × Nat) := none
  actual_arrival : Option (Nat × Nat) := none
  planned_passengers : List (KitType × Int) := []
  actual_passengers : List (KitType × Int) := []
  status : FlightStatus := .SCHEDULED

/-- Property `departure_global_hour`: the actual departure if set, else the
planned one, converted to a global hour. -/
def FlightInstance.departure_global_hour (f : FlightInstance) : Nat :=
  let t := f.actual_departure.getD f.planned_departure
  toGlobalHour t.1 t.2

/-- Property `arrival_global_hour`: the actual arrival if set, else the
planned one, converted to a global hour. -/
def FlightInstance.arrival_global_hour (f : FlightInstance) : Nat :=
  let t := f.actual_arrival.getD f.planned_arrival
  toGlobalHour t.1 t.2

/-- Movement edge categories (`src/rotables/state/movements.py`). -/
inductive EdgeType where
  | STORAGE
  | FLIGHT
  | PROCESSING
  | PURCHASE
deriving DecidableEq, Repr

/-- A scheduled kit transfer between two (airport, hour) nodes
(`src/rotables/state/movements.py`). -/
structure KitMovement where
  edge_type : EdgeType
  origin_airport : String
  origin_hour : Nat
  destination_airport : String
  destination_hour : Nat
  kit_type : KitType
  quantity : Int
  flight_id : Option String := none
  reason : Option String := none
deriving DecidableEq

/-- The static catalog a `MatrixState` is constructed over: the
`airports` and `aircraft_types` dictionaries, modelled as lists searched by
code (Python dict iteration order is insertion order). -/
structure Env where
  airports : List Airport
  aircraft_types : List AircraftType

/-- Dictionary lookup `self.airports[code]` / `self.airports.get(code)`. -/
def Env.findAirport (env : Env) (code : String) : Option Airport :=
  env.airports.find? (fun a => a.code = code)

/-- Dictionary lookup `self.aircraft_types.get(code)`. -/
def Env.findAircraft (env : Env) (code : String) : Option AircraftType :=
  env.aircraft_types.find? (fun a => a.code = code)

/-- The mutable state of `MatrixState`: the node cache, the append-only
movement ledger and the negative-inventory log.  The per-hour movement
indexes of the source are derived views of `movements` (registration appends
to all three lists in the same order). -/
structure MatrixState where
  nodes : String × Nat → Option (KitType → Int)
  movements : List KitMovement
  negative_inventory : List (String × KitType × Nat × Int)

/-- Constructor `MatrixState.__init__`: seed an hour-0 node for every
airport from its initial stock. -/
def MatrixState.init (env : Env) : MatrixState where
  nodes := fun key =>
    if key.2 = 0 then (env.findAirport key.1).map (fun a => a.initial_stock_per_kit)
    else none
  movements := []
  negative_inventory := []

/-- Node-cache lookup `self.nodes.get((code, hour))`. -/
def MatrixState.findNode (s : MatrixState) (a : String) (h : Nat) :
    Option (KitType → Int) :=
  s.nodes (a, h)

/-- Node-cache write `self.nodes[(code, hour)] = node`; also models the
in-place mutation of a cached node's stock dict. -/
def MatrixState.insertNode (s : MatrixState) (a : String) (h : Nat)
    (st : KitType → Int) : MatrixState :=
  { s with nodes := fun key => if key = (a, h) then some st else s.nodes key }

/-- Write one kit's quantity in a stock dict. -/
def updateStock (st : KitType → Int) (k : KitType) (v : Int) : KitType → Int :=
  fun k' => if k' = k then v else st k'

/-- `_register_movement`: append to the ledger (the by-hour indexes are
derived from it). -/
def MatrixState.registerMovement (s : MatrixState) (m : KitMovement) :
    MatrixState :=
  { s with movements := s.movements ++ [m] }

/-- `movements_by_destination_hour[h]` as a view of the ledger. -/
def MatrixState.movementsByDestinationHour (s : MatrixState) (h : Nat) :
    List KitMovement :=
  s.movements.filter (fun m => m.destination_hour = h)

/-- `movements_by_origin_hour[h]` as a view of the ledger. -/
def MatrixState.movementsByOriginHour (s : MatrixState) (h : Nat) :
    List KitMovement :=
  s.movements.filter (fun m => m.origin_hour = h)

/-- `MatrixState._ensure_node`: return the cached snapshot or materialize it
by copying the previous hour's snapshot (hour 0 seeds from initial stock);
an unknown airport code is a `KeyError`, modelled as `none`. -/
def ensure_node (env : Env) (s : MatrixState) (a : String) :
    Nat → Option (MatrixState × (KitType → Int))
  | 0 =>
    match s.findNode a 0 with
    | some st => some (s, st)
    | none =>
      match env.findAirport a with
      | none => none
      | some ap => some (s.insertNode a 0 ap.initial_stock_per_kit,
                         ap.initial_stock_per_kit)
  | (h + 1) =>
    match s.findNode a (h + 1) with
    | some st => some (s, st)
    | none =>
      match env.findAirport a with
      | none => none
      | some _ =>
        match ensure_node env s a h with
        | none => none
        | some (s1, prev) => some (s1.insertNode a (h + 1) prev, prev)

/-- One credit step of `apply_movements_for_hour`: add the movement's
quantity at its destination node for this hour. -/
def applyCredit (env : Env) (h : Nat) (s : MatrixState) (m : KitMovement) :
    Option MatrixState := do
  let (s, st) ← ensure_node env s m.destination_airport h
  pure (s.insertNode m.destination_airport h
    (updateStock st m.kit_type (st m.kit_type + m.quantity)))

/-- One debit step of `apply_movements_for_hour`: subtract the movement's
quantity at its origin node for this hour, recording a negative-inventory
violation when the stored value drops below zero (debits are not clamped). -/
def applyDebit (env : Env) (h : Nat) (s : MatrixState) (m : KitMovement) :
    Option MatrixState := do
  let (s, st) ← ensure_node env s m.origin_airport h
  let v := st m.kit_type - m.quantity
  let s := s.insertNode m.origin_airport h (updateStock st m.kit_type v)
  pure (if v < 0 then
          { s with negative_inventory :=
              s.negative_inventory ++ [(m.origin_airport, m.kit_type, h, m.quantity)] }
        else s)

/-- `MatrixState.apply_movements_for_hour`: no-op beyond `MAX_HOUR`; else
forward-fill every airport's node for the hour, then apply destination
credits, then origin debits. -/
def apply_movements_for_hour (env : Env) (s : MatrixState) (h : Nat) :
    Option MatrixState :=
  if h > MAX_HOUR then some s
  else do
    let s ← env.airports.foldlM
      (fun s a => (ensure_node env s a.code h).map Prod.fst) s
    let dests := s.movementsByDestinationHour h
    let s ← dests.foldlM (applyCredit env h) s
    let origs := s.movementsByOriginHour h
    origs.foldlM (applyDebit env h) s

/-- The per-kit body of the loop in `schedule_flight_load`: skip
non-positive requests, accept `min(requested, capacity, available)`,
debit the origin node and register the FLIGHT and PROCESSING movements.
The state is threaded together with the origin node's stock dict, which the
source mutates in place (the cache holds the same object). -/
def loadLoop (env : Env) (f : FlightInstance) (acft : AircraftType)
    (depart arrival : Nat) :
    List (KitType × Int) → MatrixState → (KitType → Int) →
    Option MatrixState
  | [], s, _ => some s
  | (kit, req) :: rest, s, st =>
    if req ≤ 0 then loadLoop env f acft depart arrival rest s st
    else
      let capacity := acft.kit_capacity_per_class kit
      let qty := min req (min capacity (st kit))
      if qty ≤ 0 then loadLoop env f acft depart arrival rest s st
      else
        let st' := updateStock st kit (st kit - qty)
        let s := s.insertNode f.origin depart st'
        let s := s.registerMovement
          { edge_type := .FLIGHT
            origin_airport := f.origin
            origin_hour := depart
            destination_airport := f.destination
            destination_hour := arrival
            kit_type := kit
            quantity := qty
            flight_id := some f.flight_id
            reason := some "flight_load" }
        match env.findAirport f.destination with
        | none => none
        | some destAp =>
          let ready := min (arrival + destAp.processing_time_hours kit) MAX_HOUR
          let s := s.registerMovement
            { edge_type := .PROCESSING
              origin_airport := f.destination
              origin_hour := arrival
              destination_airport := f.destination
              destination_hour := ready
              kit_type := kit
              quantity := qty
              flight_id := some f.flight_id
              reason := some "turnaround_processing" }
          loadLoop env f acft depart arrival rest s st'

/-- `MatrixState.schedule_flight_load`: unknown aircraft is a `ValueError`;
otherwise ensure the origin node at the departure hour and run the per-kit
loop over the requested load map (an association list, as dict items). -/
def schedule_flight_load (env : Env) (s : MatrixState) (f : FlightInstance)
    (load_per_kit : List (KitType × Int)) : Option MatrixState := do
  let acft ← env.findAircraft f.aircraft_type_code
  let depart := f.departure_global_hour
  let arrival := f.arrival_global_hour
  let (s, st) ← ensure_node env s f.origin depart
  loadLoop env f acft depart arrival load_per_kit s st

/-- `MatrixState.schedule_purchase`: no-op for non-positive quantity;
requires a configured hub airport `HUB1`; registers a PURCHASE movement
whose ready hour is the purchase hour plus the kit's lead time, capped at
`MAX_HOUR`. -/
def schedule_purchase (env : Env) (s : MatrixState) (kit : KitType)
    (quantity : Int) (purchase_global_hour : Nat) : Option MatrixState :=
  if quantity ≤ 0 then some s
  else
    match env.findAirport "HUB1" with
    | none => none
    | some hub =>
      if hub.is_hub = false then none
      else
        let ready := min (purchase_global_hour + kit.replacement_lead_time_hours)
          MAX_HOUR
        some (s.registerMovement
          { edge_type := .PURCHASE
            origin_airport := "HUB1"
            origin_hour := purchase_global_hour
            destination_airport := "HUB1"
            destination_hour := ready
            kit_type := kit
            quantity := quantity
            flight_id := none
            reason := some "purchase" })

/-- `MatrixState.get_available_kits`: ensure the node and return (a copy of)
its stock dict; the ensured state is returned because the call mutates the
node cache. -/
def get_available_kits (env : Env) (s : MatrixState) (a : String) (h : Nat) :
    Option (MatrixState × (KitType → Int)) :=
  ensure_node env s a h

/-- Read a stored stock value directly from the node cache, defaulting a
missing node to `0`; used to state theorems about reached states. -/
def nodeStock (s : MatrixState) (a : String) (h : Nat) (k : KitType) : Int :=
  match s.nodes (a, h) with
  | some st => st k
  | none => 0

/-- The credit a single movement contributes to airport `b` and kit `k`
when its destination hour is applied. -/
def creditOf (b : String) (k : KitType) (m : KitMovement) : Int :=
  if m.destination_airport = b ∧ m.kit_type = k then m.quantity else 0

/-- The debit a single movement contributes to airport `b` and kit `k`
when its origin hour is applied. -/
def debitOf (b : String) (k : KitType) (m : KitMovement) : Int :=
  if m.origin_airport = b ∧ m.kit_type = k then m.quantity else 0

/-- Total stock of a kit across all airports at an hour, the quantity the
conservation property speaks about. -/
def totalStock (env : Env) (s : MatrixState) (h : Nat) (k : KitType) : Int :=
  (env.airports.map (fun a => nodeStock s a.code h k)).sum

section BasicLemmas

theorem insertNode_movements (s : MatrixState) (a : String) (h : Nat)
    (st : KitType → Int) : (s.insertNode a h st).movements = s.movements := rfl

theorem insertNode_neg (s : MatrixState) (a : String) (h : Nat)
    (st : KitType → Int) :
    (s.insertNode a h st).negative_inventory = s.negative_inventory := rfl

theorem insertNode_nodes_self (s : MatrixState) (a : String) (h : Nat)
    (st : KitType → Int) : (s.insertNode a h st).nodes (a, h) = some st := by
  simp [MatrixState.insertNode]

theorem insertNode_nodes_other (s : MatrixState) (a : String) (h : Nat)
    (st : KitType → Int) (key : String × Nat) (hk : key ≠ (a, h)) :
    (s.insertNode a h st).nodes key = s.nodes key := by
  simp [MatrixState.insertNode, hk]

theorem registerMovement_nodes (s : MatrixState) (m : KitMovement) :
    (s.registerMovement m).nodes = s.nodes := rfl

theorem registerMovement_neg (s : MatrixState) (m : KitMovement) :
    (s.registerMovement m).negative_inventory = s.negative_inventory := rfl

theorem nodeStock_insert_self (s : MatrixState) (a : String) (h : Nat)
    (st : KitType → Int) (k : KitType) :
    nodeStock (s.insertNode a h st) a h k = st k := by
  simp [nodeStock, insertNode_nodes_self]

theorem nodeStock_insert_other (s : MatrixState) (a : String) (h : Nat)
    (st : KitType → Int) (b : String) (h' : Nat) (k : KitType)
    (hk : (b, h') ≠ (a, h)) :
    nodeStock (s.insertNode a h st) b h' k = nodeStock s b h' k := by
  simp [nodeStock, insertNode_nodes_other s a h st _ hk]

/-- In a list of airports with pairwise distinct codes, looking up a
member's code finds that member. -/
theorem find_code_self (l : List Airport)
    (hd : l.Pairwise (fun x y => x.code ≠ y.code)) (a : Airport)
    (ha : a ∈ l) : l.find? (fun x => x.code = a.code) = some a := by
  induction l with
  | nil => cases ha
  | cons b t ih =>
    rcases List.mem_cons.mp ha with rfl | hat
    · simp [List.find?]
    · have hbne : b.code ≠ a.code := (List.pairwise_cons.mp hd).1 a hat
      have : (fun x => decide (x.code = a.code)) b = false := by
        simpa using hbne
      simp only [List.find?, this]
      exact ih (List.pairwise_cons.mp hd).2 hat

/-- Cache hit: `_ensure_node` on a cached key returns the state unchanged. -/
theorem ensure_node_hit (env : Env) (s : MatrixState) (a : String) (h : Nat)
    (st : KitType → Int) (hc : s.nodes (a, h) = some st) :
    ensure_node env s a h = some (s, st) := by
  cases h with
  | zero => simp [ensure_node, MatrixState.findNode, hc]
  | succ n => simp [ensure_node, MatrixState.findNode, hc]

/-- Cache miss with the previous hour cached: `_ensure_node` copies the
previous hour's snapshot into the asked hour. -/
theorem ensure_node_fill (env : Env) (s : MatrixState) (a : String) (h : Nat)
    (st : KitType → Int) (ap : Airport)
    (hmiss : s.nodes (a, h + 1) = none) (hprev : s.nodes (a, h) = some st)
    (hap : env.findAirport a = some ap) :
    ensure_node env s a (h + 1) = some (s.insertNode a (h + 1) st, st) := by
  simp [ensure_node, MatrixState.findNode, hmiss, hap,
    ensure_node_hit env s a h st hprev]

end BasicLemmas

section FoldLemmas

theorem updateStock_self (st : KitType → Int) (k : KitType) (v : Int) :
    updateStock st k v k = v := by simp [updateStock]

theorem updateStock_other (st : KitType → Int) (k k' : KitType) (v : Int)
    (hk : k' ≠ k) : updateStock st k v k' = st k' := by simp [updateStock, hk]

/-- Effect of the credit loop of `apply_movements_for_hour` over a list of
movements whose destination nodes for the hour are all cached: it succeeds,
touches only hour-`h` nodes, and adds each movement's quantity at its
destination. -/
theorem creditFold (env : Env) (h : Nat) (ms : List KitMovement) :
    ∀ s : MatrixState,
    (∀ m ∈ ms, (s.nodes (m.destination_airport, h)).isSome = true) →
    ∃ s', ms.foldlM (applyCredit env h) s = some s' ∧
      s'.movements = s.movements ∧
      s'.negative_inventory = s.negative_inventory ∧
      (∀ key : String × Nat, key.2 ≠ h → s'.nodes key = s.nodes key) ∧
      (∀ b : String, (s'.nodes (b, h)).isSome = (s.nodes (b, h)).isSome) ∧
      (∀ b k, nodeStock s' b h k = nodeStock s b h k + (ms.map (creditOf b k)).sum) := by
  induction ms with
  | nil =>
    intro s _
    exact ⟨s, rfl, rfl, rfl, fun _ _ => rfl, fun _ => rfl, by simp⟩
  | cons m rest ih =>
    intro s hsome
    obtain ⟨st, hst⟩ :=
      Option.isSome_iff_exists.mp (hsome m (List.mem_cons_self m rest))
    have hstep : applyCredit env h s m =
        some (s.insertNode m.destination_airport h
          (updateStock st m.kit_type (st m.kit_type + m.quantity))) := by
      simp [applyCredit, ensure_node_hit env s m.destination_airport h st hst]
    set s1 := s.insertNode m.destination_airport h
      (updateStock st m.kit_type (st m.kit_type + m.quantity)) with hs1
    have hs1some : ∀ m' ∈ rest,
        (s1.nodes (m'.destination_airport, h)).isSome = true := by
      intro m' hm'
      by_cases hb : m'.destination_airport = m.destination_airport
      · rw [hb, hs1, insertNode_nodes_self]; rfl
      · rw [hs1, insertNode_nodes_other _ _ _ _ _ (by simp [hb])]
        exact hsome m' (List.mem_cons_of_mem m hm')
    obtain ⟨s', hfold, hmv, hneg, hframe, hsome', hval⟩ := ih s1 hs1some
    refine ⟨s', ?_, ?_, ?_, ?_, ?_, ?_⟩
    · rw [List.foldlM_cons, hstep]; exact hfold
    · rw [hmv, hs1, insertNode_movements]
    · rw [hneg, hs1, insertNode_neg]
    · intro key hk
      rw [hframe key hk, hs1,
        insertNode_nodes_other _ _ _ _ _ (by rintro rfl; exact hk rfl)]
    · intro b
      rw [hsome' b]
      by_cases hb : b = m.destination_airport
      · subst hb
        rw [hs1, insertNode_nodes_self, hst]; rfl
      · rw [hs1, insertNode_nodes_other _ _ _ _ _ (by simp [hb])]
    · intro b k
      have hone : nodeStock s1 b h k = nodeStock s b h k + creditOf b k m := by
        by_cases hb : b = m.destination_airport
        · subst hb
          rw [hs1, nodeStock_insert_self]
          have hbase : nodeStock s m.destination_airport h k = st k := by
            simp [nodeStock, hst]
          by_cases hk : k = m.kit_type
          · subst hk
            rw [updateStock_self, hbase, creditOf]
            simp
          · rw [updateStock_other _ _ _ _ hk, hbase]
            have hcond : ¬ (m.destination_airport = m.destination_airport ∧
                m.kit_type = k) := by
              rintro ⟨-, h2⟩; exact hk h2.symm
            have hz : creditOf m.destination_airport k m = 0 := by
              unfold creditOf
              rw [if_neg hcond]
            rw [hz]; ring
        · rw [hs1, nodeStock_insert_other _ _ _ _ _ _ _ (by simp [hb])]
          have : creditOf b k m = 0 := by
            unfold creditOf
            have : ¬ (m.destination_airport = b ∧ m.kit_type = k) := by
              rintro ⟨h1, -⟩; exact hb h1.symm
            simp [this]
          omega
      rw [hval b k, hone, List.map_cons, List.sum_cons]
      ring

/-- The state produced by one debit step on a cached node, split out so the
two branches of the negative-inventory check can be reasoned about. -/
def debitResult (s : MatrixState) (b : String) (h : Nat) (k : KitType)
    (q : Int) (st : KitType → Int) : MatrixState :=
  let s1 := s.insertNode b h (updateStock st k (st k - q))
  if st k - q < 0 then
    { s1 with negative_inventory := s1.negative_inventory ++ [(b, k, h, q)] }
  else s1

/-- The log entries one debit step appends. -/
def debitLog (b : String) (h : Nat) (k : KitType) (q : Int)
    (st : KitType → Int) : List (String × KitType × Nat × Int) :=
  if st k - q < 0 then [(b, k, h, q)] else []

theorem applyDebit_eq (env : Env) (h : Nat) (s : MatrixState) (m : KitMovement)
    (st : KitType → Int) (hst : s.nodes (m.origin_airport, h) = some st) :
    applyDebit env h s m =
      some (debitResult s m.origin_airport h m.kit_type m.quantity st) := by
  simp only [applyDebit, ensure_node_hit env s m.origin_airport h st hst,
    debitResult, Option.bind_eq_bind, Option.some_bind]
  split <;> rfl

theorem debitResult_nodes (s : MatrixState) (b : String) (h : Nat)
    (k : KitType) (q : Int) (st : KitType → Int) :
    (debitResult s b h k q st).nodes =
      (s.insertNode b h (updateStock st k (st k - q))).nodes := by
  unfold debitResult
  split <;> rfl

theorem debitResult_movements (s : MatrixState) (b : String) (h : Nat)
    (k : KitType) (q : Int) (st : KitType → Int) :
    (debitResult s b h k q st).movements = s.movements := by
  unfold debitResult
  split <;> rfl

theorem debitResult_neg (s : MatrixState) (b : String) (h : Nat)
    (k : KitType) (q : Int) (st : KitType → Int) :
    (debitResult s b h k q st).negative_inventory =
      s.negative_inventory ++ debitLog b h k q st := by
  unfold debitResult debitLog
  split
  · rfl
  · simp [insertNode_neg]

/-- Effect of the debit loop of `apply_movements_for_hour`: it succeeds on
cached nodes, subtracts each movement's quantity at its origin without
clamping, and whenever some debited (airport, kit) ends the hour negative
while a debit movement for it was processed, a violation record for that
airport, kit and hour is appended. -/
theorem debitFold (env : Env) (h : Nat) (ms : List KitMovement) :
    ∀ s : MatrixState,
    (∀ m ∈ ms, (s.nodes (m.origin_airport, h)).isSome = true) →
    ∃ s' L, ms.foldlM (applyDebit env h) s = some s' ∧
      s'.movements = s.movements ∧
      s'.negative_inventory = s.negative_inventory ++ L ∧
      (∀ key : String × Nat, key.2 ≠ h → s'.nodes key = s.nodes key) ∧
      (∀ b : String, (s'.nodes (b, h)).isSome = (s.nodes (b, h)).isSome) ∧
      (∀ b k, nodeStock s' b h k = nodeStock s b h k - (ms.map (debitOf b k)).sum) ∧
      (∀ b k, (∃ m ∈ ms, m.origin_airport = b ∧ m.kit_type = k) →
        nodeStock s' b h k < 0 → ∃ q, (b, k, h, q) ∈ L) := by
  induction ms with
  | nil =>
    intro s _
    exact ⟨s, [], rfl, rfl, by simp, fun _ _ => rfl, fun _ => rfl, by simp,
      by rintro b k ⟨m, hm, -⟩ -; cases hm⟩
  | cons m rest ih =>
    intro s hsome
    obtain ⟨st, hst⟩ :=
      Option.isSome_iff_exists.mp (hsome m (List.mem_cons_self m rest))
    have hstep := applyDebit_eq env h s m st hst
    set sres := debitResult s m.origin_airport h m.kit_type m.quantity st
      with hres
    have hrn : sres.nodes =
        (s.insertNode m.origin_airport h
          (updateStock st m.kit_type (st m.kit_type - m.quantity))).nodes :=
      debitResult_nodes ..
    have hrm : sres.movements = s.movements := debitResult_movements ..
    have hrneg : sres.negative_inventory = s.negative_inventory ++
        debitLog m.origin_airport h m.kit_type m.quantity st :=
      debitResult_neg ..
    have hbase : nodeStock s m.origin_airport h m.kit_type = st m.kit_type := by
      simp [nodeStock, hst]
    have hressome : ∀ m' ∈ rest,
        (sres.nodes (m'.origin_airport, h)).isSome = true := by
      intro m' hm'
      rw [hrn]
      by_cases hb : m'.origin_airport = m.origin_airport
      · rw [hb, insertNode_nodes_self]; rfl
      · rw [insertNode_nodes_other _ _ _ _ _ (by simp [hb])]
        exact hsome m' (List.mem_cons_of_mem m hm')
    obtain ⟨s', L2, hfold, hmv, hneg, hframe, hsome', hval, hlog⟩ :=
      ih sres hressome
    refine ⟨s', debitLog m.origin_airport h m.kit_type m.quantity st ++ L2,
      ?_, ?_, ?_, ?_, ?_, ?_, ?_⟩
    · rw [List.foldlM_cons, hstep]; exact hfold
    · rw [hmv, hrm]
    · rw [hneg, hrneg, List.append_assoc]
    · intro key hk
      rw [hframe key hk, hrn,
        insertNode_nodes_other _ _ _ _ _ (by rintro rfl; exact hk rfl)]
    · intro b
      rw [hsome' b, hrn]
      by_cases hb : b = m.origin_airport
      · subst hb
        rw [insertNode_nodes_self, hst]; rfl
      · rw [insertNode_nodes_other _ _ _ _ _ (by simp [hb])]
    · intro b k
      have hone : nodeStock sres b h k = nodeStock s b h k - debitOf b k m := by
        by_cases hb : b = m.origin_airport
        · subst hb
          have : nodeStock sres m.origin_airport h k =
              updateStock st m.kit_type (st m.kit_type - m.quantity) k := by
            simp [nodeStock, hrn, insertNode_nodes_self]
          rw [this]
          by_cases hk : k = m.kit_type
          · subst hk
            rw [updateStock_self, hbase]
            have : debitOf m.origin_airport m.kit_type m = m.quantity := by
              unfold debitOf
              rw [if_pos ⟨rfl, rfl⟩]
            rw [this]
          · rw [updateStock_other _ _ _ _ hk]
            have hbk : nodeStock s m.origin_airport h k = st k := by
              simp [nodeStock, hst]
            have hz : debitOf m.origin_airport k m = 0 := by
              unfold debitOf
              rw [if_neg (by rintro ⟨-, h2⟩; exact hk h2.symm)]
            rw [hbk, hz]; ring
        · have hnb : sres.nodes (b, h) = s.nodes (b, h) := by
            rw [hrn]
            exact insertNode_nodes_other _ _ _ _ _ (by simp [hb])
          have : nodeStock sres b h k = nodeStock s b h k := by
            simp [nodeStock, hnb]
          have hz : debitOf b k m = 0 := by
            unfold debitOf
            rw [if_neg (by rintro ⟨h1, -⟩; exact hb h1.symm)]
          rw [this, hz]; ring
      rw [hval b k, hone, List.map_cons, List.sum_cons]
      ring
    · rintro b k ⟨m', hm', hmo, hmk⟩ hnegv
      by_cases hrest : ∃ m'' ∈ rest, m''.origin_airport = b ∧ m''.kit_type = k
      · obtain ⟨q, hq⟩ := hlog b k hrest hnegv
        exact ⟨q, List.mem_append_right _ hq⟩
      · have hm'm : m' = m := by
          rcases List.mem_cons.mp hm' with rfl | hmem
          · rfl
          · exact absurd ⟨m', hmem, hmo, hmk⟩ hrest
        subst hm'm
        have hrz : (rest.map (debitOf b k)).sum = 0 := by
          have : ∀ x ∈ rest.map (debitOf b k), x = 0 := by
            intro x hx
            obtain ⟨m'', hm'', rfl⟩ := List.mem_map.mp hx
            unfold debitOf
            rw [if_neg (by rintro ⟨h1, h2⟩; exact hrest ⟨m'', hm'', h1, h2⟩)]
          exact List.sum_eq_zero this
        have hfin : nodeStock s' b h k = nodeStock sres b h k := by
          rw [hval b k, hrz]; ring
        subst hmo; subst hmk
        have hv : nodeStock sres m'.origin_airport h m'.kit_type =
            st m'.kit_type - m'.quantity := by
          simp [nodeStock, hrn, insertNode_nodes_self, updateStock_self]
        have hvneg : st m'.kit_type - m'.quantity < 0 := by
          rw [hfin, hv] at hnegv; exact hnegv
        refine ⟨m'.quantity, List.mem_append_left _ ?_⟩
        unfold debitLog
        rw [if_pos hvneg]
        exact List.mem_singleton.mpr rfl

end FoldLemmas

section ApplyLemmas

/-- The forward-fill pass of `apply_movements_for_hour` is the identity when
every airport's node for the hour is already cached. -/
theorem fillCached (env : Env) (h : Nat) (as : List Airport) :
    ∀ s : MatrixState,
    (∀ a ∈ as, (s.nodes (a.code, h)).isSome = true) →
    as.foldlM (fun s a => (ensure_node env s a.code h).map Prod.fst) s = some s := by
  induction as with
  | nil => intro s _; rfl
  | cons a t ih =>
    intro s hsome
    obtain ⟨st, hst⟩ :=
      Option.isSome_iff_exists.mp (hsome a (List.mem_cons_self a t))
    rw [List.foldlM_cons, ensure_node_hit env s a.code h st hst]
    exact ih s (fun b hb => hsome b (List.mem_cons_of_mem a hb))

/-- The forward-fill pass at a fresh hour `h+1`: every airport's node is
materialized by copying its hour-`h` snapshot, and nothing else changes. -/
theorem fillFresh (env : Env) (h : Nat) (as : List Airport) :
    ∀ s : MatrixState,
    as.Pairwise (fun x y => x.code ≠ y.code) →
    (∀ a ∈ as, env.findAirport a.code = some a) →
    (∀ a ∈ as, s.nodes (a.code, h + 1) = none) →
    (∀ a ∈ as, (s.nodes (a.code, h)).isSome = true) →
    ∃ s', as.foldlM (fun s a => (ensure_node env s a.code (h + 1)).map Prod.fst) s
        = some s' ∧
      s'.movements = s.movements ∧
      s'.negative_inventory = s.negative_inventory ∧
      (∀ key : String × Nat, (∀ a ∈ as, key ≠ (a.code, h + 1)) →
        s'.nodes key = s.nodes key) ∧
      (∀ a ∈ as, s'.nodes (a.code, h + 1) = s.nodes (a.code, h)) := by
  induction as with
  | nil =>
    intro s _ _ _ _
    exact ⟨s, rfl, rfl, rfl, fun _ _ => rfl, by intro a ha; cases ha⟩
  | cons a t ih =>
    intro s hdist hfind hnone hprev
    obtain ⟨st, hst⟩ :=
      Option.isSome_iff_exists.mp (hprev a (List.mem_cons_self a t))
    have hfill := ensure_node_fill env s a.code h st a
      (hnone a (List.mem_cons_self a t)) hst (hfind a (List.mem_cons_self a t))
    set s1 := s.insertNode a.code (h + 1) st with hs1
    have hdistt := (List.pairwise_cons.mp hdist).2
    have hcodes : ∀ b ∈ t, a.code ≠ b.code := (List.pairwise_cons.mp hdist).1
    have hfind1 : ∀ b ∈ t, env.findAirport b.code = some b :=
      fun b hb => hfind b (List.mem_cons_of_mem a hb)
    have hnone1 : ∀ b ∈ t, s1.nodes (b.code, h + 1) = none := by
      intro b hb
      rw [hs1, insertNode_nodes_other _ _ _ _ _
        (by simp; intro hc; exact absurd hc.symm (hcodes b hb))]
      exact hnone b (List.mem_cons_of_mem a hb)
    have hprev1 : ∀ b ∈ t, (s1.nodes (b.code, h)).isSome = true := by
      intro b hb
      rw [hs1, insertNode_nodes_other _ _ _ _ _ (by simp)]
      exact hprev b (List.mem_cons_of_mem a hb)
    obtain ⟨s', hfold, hmv, hneg, hframe, hvals⟩ :=
      ih s1 hdistt hfind1 hnone1 hprev1
    refine ⟨s', ?_, ?_, ?_, ?_, ?_⟩
    · rw [List.foldlM_cons, hfill]
      simpa using hfold
    · rw [hmv, hs1, insertNode_movements]
    · rw [hneg, hs1, insertNode_neg]
    · intro key hkey
      rw [hframe key (fun b hb => hkey b (List.mem_cons_of_mem a hb)), hs1,
        insertNode_nodes_other _ _ _ _ _ (hkey a (List.mem_cons_self a t))]
    · intro b hb
      rcases List.mem_cons.mp hb with rfl | hbt
      · have : s'.nodes (b.code, h + 1) = s1.nodes (b.code, h + 1) := by
          refine hframe _ ?_
          intro c hc
          simp
          intro hcc
          exact absurd hcc (hcodes c hc)
        rw [this, hs1, insertNode_nodes_self, ← hst]
      · rw [hvals b hbt, hs1,
          insertNode_nodes_other _ _ _ _ _ (by simp)]

/-- Characterization of `apply_movements_for_hour` at a fresh hour `n+1`:
with every airport materialized through hour `n` and nothing at `n+1`, the
call forward-fills hour `n+1` and then adds the hour's destination credits
and subtracts its origin debits, appending violation records exactly for
debited kits that end the hour negative. -/
theorem apply_fresh (env : Env) (n : Nat) (s : MatrixState)
    (hdist : env.airports.Pairwise (fun x y => x.code ≠ y.code))
    (hmax : n + 1 ≤ MAX_HOUR)
    (hnone : ∀ a ∈ env.airports, s.nodes (a.code, n + 1) = none)
    (hprev : ∀ a ∈ env.airports, (s.nodes (a.code, n)).isSome = true)
    (hmova : ∀ m ∈ s.movements,
      (m.destination_hour = n + 1 →
        ∃ a ∈ env.airports, a.code = m.destination_airport) ∧
      (m.origin_hour = n + 1 →
        ∃ a ∈ env.airports, a.code = m.origin_airport)) :
    ∃ s' L, apply_movements_for_hour env s (n + 1) = some s' ∧
      s'.movements = s.movements ∧
      s'.negative_inventory = s.negative_inventory ++ L ∧
      (∀ key : String × Nat, key.2 ≠ n + 1 → s'.nodes key = s.nodes key) ∧
      (∀ a ∈ env.airports, (s'.nodes (a.code, n + 1)).isSome = true) ∧
      (∀ a ∈ env.airports, ∀ k, nodeStock s' a.code (n + 1) k =
        nodeStock s a.code n k
        + ((s.movements.filter (fun m => m.destination_hour = n + 1)).map
            (creditOf a.code k)).sum
        - ((s.movements.filter (fun m => m.origin_hour = n + 1)).map
            (debitOf a.code k)).sum) ∧
      (∀ a ∈ env.airports, ∀ k,
        (∃ m ∈ s.movements, m.origin_hour = n + 1 ∧
          m.origin_airport = a.code ∧ m.kit_type = k) →
        nodeStock s' a.code (n + 1) k < 0 →
        ∃ q, (a.code, k, n + 1, q) ∈ s'.negative_inventory) := by
  have hfindall : ∀ a ∈ env.airports, env.findAirport a.code = some a :=
    fun a ha => find_code_self env.airports hdist a ha
  obtain ⟨s1, hfold1, hmv1, hneg1, hframe1, hvals1⟩ :=
    fillFresh env n env.airports s hdist hfindall hnone hprev
  have hval1 : ∀ a ∈ env.airports, ∀ k,
      nodeStock s1 a.code (n + 1) k = nodeStock s a.code n k := by
    intro a ha k
    simp [nodeStock, hvals1 a ha]
  have hsome1 : ∀ a ∈ env.airports, (s1.nodes (a.code, n + 1)).isSome = true := by
    intro a ha
    rw [hvals1 a ha]
    exact hprev a ha
  have hcred_pre : ∀ m ∈ s.movements.filter (fun m => m.destination_hour = n + 1),
      (s1.nodes (m.destination_airport, n + 1)).isSome = true := by
    intro m hm
    obtain ⟨a, ha, hac⟩ := (hmova m (List.mem_filter.mp hm).1).1
      (by simpa using (List.mem_filter.mp hm).2)
    rw [← hac]
    exact hsome1 a ha
  obtain ⟨s2, hfold2, hmv2, hneg2, hframe2, hsome2, hval2⟩ :=
    creditFold env (n + 1) _ s1 hcred_pre
  have hdeb_pre : ∀ m ∈ s.movements.filter (fun m => m.origin_hour = n + 1),
      (s2.nodes (m.origin_airport, n + 1)).isSome = true := by
    intro m hm
    obtain ⟨a, ha, hac⟩ := (hmova m (List.mem_filter.mp hm).1).2
      (by simpa using (List.mem_filter.mp hm).2)
    rw [← hac, hsome2 a.code]
    exact hsome1 a ha
  obtain ⟨s3, L, hfold3, hmv3, hneg3, hframe3, hsome3, hval3, hlog3⟩ :=
    debitFold env (n + 1) _ s2 hdeb_pre
  have happ : apply_movements_for_hour env s (n + 1) = some s3 := by
    unfold apply_movements_for_hour
    rw [if_neg (by omega)]
    rw [hfold1]
    simp only [Option.bind_eq_bind, Option.some_bind]
    have hd : s1.movementsByDestinationHour (n + 1) =
        s.movements.filter (fun m => m.destination_hour = n + 1) := by
      unfold MatrixState.movementsByDestinationHour
      rw [hmv1]
    rw [hd, hfold2]
    simp only [Option.bind_eq_bind, Option.some_bind]
    have ho : s2.movementsByOriginHour (n + 1) =
        s.movements.filter (fun m => m.origin_hour = n + 1) := by
      unfold MatrixState.movementsByOriginHour
      rw [hmv2, hmv1]
    rw [ho, hfold3]
  have hmvfin : s3.movements = s.movements := by rw [hmv3, hmv2, hmv1]
  have hnegfin : s3.negative_inventory = s.negative_inventory ++ L := by
    rw [hneg3, hneg2, hneg1]
  refine ⟨s3, L, happ, hmvfin, hnegfin, ?_, ?_, ?_, ?_⟩
  · intro key hk
    rw [hframe3 key hk, hframe2 key hk,
      hframe1 key (by intro a _; rintro rfl; exact hk rfl)]
  · intro a ha
    rw [hsome3 a.code, hsome2 a.code]
    exact hsome1 a ha
  · intro a ha k
    rw [hval3 a.code k, hval2 a.code k, hval1 a ha k]
  · intro a ha k hex hneg'
    obtain ⟨m, hm, hoh, hoa, hok⟩ := hex
    obtain ⟨q, hq⟩ := hlog3 a.code k
      ⟨m, List.mem_filter.mpr ⟨hm, by simpa using hoh⟩, hoa, hok⟩ hneg'
    exact ⟨q, by rw [hnegfin]; exact List.mem_append_right _ hq⟩

/-- Characterization of `apply_movements_for_hour` at an hour whose nodes are
already cached for every airport (as at hour 0 right after construction):
the fill pass is the identity and the hour's credits and debits land on the
cached values. -/
theorem apply_cached (env : Env) (h : Nat) (s : MatrixState)
    (hmax : h ≤ MAX_HOUR)
    (hcache : ∀ a ∈ env.airports, (s.nodes (a.code, h)).isSome = true)
    (hmova : ∀ m ∈ s.movements,
      (m.destination_hour = h → ∃ a ∈ env.airports, a.code = m.destination_airport) ∧
      (m.origin_hour = h → ∃ a ∈ env.airports, a.code = m.origin_airport)) :
    ∃ s' L, apply_movements_for_hour env s h = some s' ∧
      s'.movements = s.movements ∧
      s'.negative_inventory = s.negative_inventory ++ L ∧
      (∀ key : String × Nat, key.2 ≠ h → s'.nodes key = s.nodes key) ∧
      (∀ a ∈ env.airports, (s'.nodes (a.code, h)).isSome = true) ∧
      (∀ a ∈ env.airports, ∀ k, nodeStock s' a.code h k =
        nodeStock s a.code h k
        + ((s.movements.filter (fun m => m.destination_hour = h)).map
            (creditOf a.code k)).sum
        - ((s.movements.filter (fun m => m.origin_hour = h)).map
            (debitOf a.code k)).sum) := by
  have hfold1 := fillCached env h env.airports s hcache
  have hcred_pre : ∀ m ∈ s.movements.filter (fun m => m.destination_hour = h),
      (s.nodes (m.destination_airport, h)).isSome = true := by
    intro m hm
    obtain ⟨a, ha, hac⟩ := (hmova m (List.mem_filter.mp hm).1).1
      (by simpa using (List.mem_filter.mp hm).2)
    rw [← hac]
    exact hcache a ha
  obtain ⟨s2, hfold2, hmv2, hneg2, hframe2, hsome2, hval2⟩ :=
    creditFold env h _ s hcred_pre
  have hdeb_pre : ∀ m ∈ s.movements.filter (fun m => m.origin_hour = h),
      (s2.nodes (m.origin_airport, h)).isSome = true := by
    intro m hm
    obtain ⟨a, ha, hac⟩ := (hmova m (List.mem_filter.mp hm).1).2
      (by simpa using (List.mem_filter.mp hm).2)
    rw [← hac, hsome2]
    exact hcache a ha
  obtain ⟨s3, L, hfold3, hmv3, hneg3, hframe3, hsome3, hval3, hlog3⟩ :=
    debitFold env h _ s2 hdeb_pre
  have happ : apply_movements_for_hour env s h = some s3 := by
    unfold apply_movements_for_hour
    rw [if_neg (by omega)]
    rw [hfold1]
    simp only [Option.bind_eq_bind, Option.some_bind]
    rw [show s.movementsByDestinationHour h =
      s.movements.filter (fun m => m.destination_hour = h) from rfl]
    rw [hfold2]
    simp only [Option.bind_eq_bind, Option.some_bind]
    have ho : s2.movementsByOriginHour h =
        s.movements.filter (fun m => m.origin_hour = h) := by
      unfold MatrixState.movementsByOriginHour
      rw [hmv2]
    rw [ho, hfold3]
  have hmvfin : s3.movements = s.movements := by rw [hmv3, hmv2]
  have hnegfin : s3.negative_inventory = s.negative_inventory ++ L := by
    rw [hneg3, hneg2]
  refine ⟨s3, L, happ, hmvfin, hnegfin, ?_, ?_, ?_⟩
  · intro key hk
    rw [hframe3 key hk, hframe2 key hk]
  · intro a ha
    rw [hsome3 a.code, hsome2 a.code]
    exact hcache a ha
  · intro a ha k
    rw [hval3 a.code k, hval2 a.code k]

end ApplyLemmas

section ClaimC6

/-- Reading one kit's value out of `get_available_kits` on a cached node
gives the stored stock. -/
theorem get_available_point (env : Env) (s : MatrixState) (a : String)
    (h : Nat) (k : KitType) (hsome : (s.nodes (a, h)).isSome = true) :
    (get_available_kits env s a h).map (fun p => p.2 k) =
      some (nodeStock s a h k) := by
  obtain ⟨st, hst⟩ := Option.isSome_iff_exists.mp hsome
  rw [get_available_kits, ensure_node_hit env s a h st hst]
  simp [nodeStock, hst]

/-- C6: forward-carry.  For an airport `a` and an hour `h = n+1 > 0` that no
movement touches (no registered movement has origin or destination hour
`h`), applying hour `h` after hours were applied in order (every airport is
materialized through hour `n` and not yet at `h`) leaves
`get_available_kits(a, h)` equal to `get_available_kits(a, h-1)` for every
kit. -/
theorem C6_forward_carry (env : Env) (n : Nat) (s : MatrixState) (a : Airport)
    (hdist : env.airports.Pairwise (fun x y => x.code ≠ y.code))
    (hmax : n + 1 ≤ MAX_HOUR)
    (ha : a ∈ env.airports)
    (hnone : ∀ b ∈ env.airports, (s.nodes (b.code, n + 1)).isNone = true)
    (hprev : ∀ b ∈ env.airports, (s.nodes (b.code, n)).isSome = true)
    (hquiet : ∀ m ∈ s.movements,
      m.destination_hour ≠ n + 1 ∧ m.origin_hour ≠ n + 1) :
    ∃ s', apply_movements_for_hour env s (n + 1) = some s' ∧
      ∀ k, (get_available_kits env s' a.code (n + 1)).map (fun p => p.2 k) =
        (get_available_kits env s' a.code n).map (fun p => p.2 k) := by
  have hnone' : ∀ b ∈ env.airports, s.nodes (b.code, n + 1) = none := by
    intro b hb
    exact Option.isNone_iff_eq_none.mp (hnone b hb)
  have hmova : ∀ m ∈ s.movements,
      (m.destination_hour = n + 1 →
        ∃ b ∈ env.airports, b.code = m.destination_airport) ∧
      (m.origin_hour = n + 1 →
        ∃ b ∈ env.airports, b.code = m.origin_airport) := by
    intro m hm
    exact ⟨fun hd => absurd hd (hquiet m hm).1,
      fun ho => absurd ho (hquiet m hm).2⟩
  obtain ⟨s', L, happ, hmv, hneg, hframe, hsome, hval, hlog⟩ :=
    apply_fresh env n s hdist hmax hnone' hprev hmova
  have hfd : s.movements.filter (fun m => m.destination_hour = n + 1) = [] := by
    rw [List.filter_eq_nil_iff]
    intro m hm
    simpa using (hquiet m hm).1
  have hfo : s.movements.filter (fun m => m.origin_hour = n + 1) = [] := by
    rw [List.filter_eq_nil_iff]
    intro m hm
    simpa using (hquiet m hm).2
  refine ⟨s', happ, fun k => ?_⟩
  have hprevs' : (s'.nodes (a.code, n)).isSome = true := by
    rw [hframe (a.code, n) (by omega)]
    exact hprev a ha
  rw [get_available_point env s' a.code (n + 1) k (hsome a ha),
    get_available_point env s' a.code n k hprevs']
  have hvn : nodeStock s' a.code n k = nodeStock s a.code n k := by
    simp [nodeStock, hframe (a.code, n) (by omega)]
  rw [hval a ha k, hfd, hfo, hvn]
  simp

/-- Concrete instance used by the C6 witness: a single airport with three
kits of each type and an empty ledger. -/
def c6Airport : Airport where
  code := "AAA"
  is_hub := false
  initial_stock_per_kit := fun _ => 3
  processing_time_hours := fun _ => 1

def c6Env : Env where
  airports := [c6Airport]
  aircraft_types := []

/-- Witness for C6 at a concrete input. -/
theorem C6_forward_carry_witness :
    ∃ s', apply_movements_for_hour c6Env (MatrixState.init c6Env) 1 = some s' ∧
      ∀ k, (get_available_kits c6Env s' c6Airport.code 1).map (fun p => p.2 k) =
        (get_available_kits c6Env s' c6Airport.code 0).map (fun p => p.2 k) :=
  C6_forward_carry c6Env 0 (MatrixState.init c6Env) c6Airport
    (by simp [c6Env]) (by decide) (by simp [c6Env])
    (fun b hb => by rcases List.mem_singleton.mp hb with rfl; rfl)
    (fun b hb => by rcases List.mem_singleton.mp hb with rfl; rfl)
    (fun m hm => by cases hm)

end ClaimC6

section ClaimC7

/-- Concrete setting for C7: a hub with 10 kits of each type, an
outstation, one aircraft type and one flight departing hour 0, arriving
hour 1. -/
def c7Hub : Airport where
  code := "HUB1"
  is_hub := true
  initial_stock_per_kit := fun _ => 10
  processing_time_hours := fun _ => 1

def c7Out : Airport where
  code := "OUT1"
  is_hub := false
  initial_stock_per_kit := fun _ => 0
  processing_time_hours := fun _ => 1

def c7Acft : AircraftType where
  code := "T1"
  kit_capacity_per_class := fun _ => 50

def c7Env : Env where
  airports := [c7Hub, c7Out]
  aircraft_types := [c7Acft]

def c7Flight : FlightInstance where
  flight_id := "F1"
  origin := "HUB1"
  destination := "OUT1"
  aircraft_type_code := "T1"
  planned_departure := (0, 0)
  planned_arrival := (0, 1)

/-- Observation sequence that first queries the future hour 1, then
schedules a flight load at hour 0, then queries hour 1 again. -/
def c7WithQuery : Option Int := do
  let (s, _) ← get_available_kits c7Env (MatrixState.init c7Env) "HUB1" 1
  let s ← schedule_flight_load c7Env s c7Flight [(KitType.D_ECONOMY, 5)]
  let (_, st) ← get_available_kits c7Env s "HUB1" 1
  pure (st KitType.D_ECONOMY)

/-- The same subsequent operations without the initial future query. -/
def c7NoQuery : Option Int := do
  let s ← schedule_flight_load c7Env (MatrixState.init c7Env) c7Flight
    [(KitType.D_ECONOMY, 5)]
  let (_, st) ← get_available_kits c7Env s "HUB1" 1
  pure (st KitType.D_ECONOMY)

/-- C7 counterexample: querying a future hour is observable.  A prior
`get_available_kits("HUB1", 1)` caches the hour-1 node at the pre-load value
10, so the later identical query answers 10 instead of the 5 obtained
without the prior query — the claim's purity statement is false. -/
theorem C7_counterexample :
    c7WithQuery = some 10 ∧ c7NoQuery = some 5 ∧ c7WithQuery ≠ c7NoQuery :=
  ⟨by decide, by decide, by decide⟩

/-- C7 amended: `get_available_kits` is observationally pure exactly on
already-materialized nodes — if the (airport, hour) node is cached the call
returns the state unchanged, so every subsequent observation is unchanged;
for not-yet-materialized (future) hours the call caches forward-filled
nodes, which later operations can observe. -/
theorem C7_query_pure_on_cached (env : Env) (s : MatrixState) (a : String)
    (h : Nat) (st : KitType → Int) (hc : s.nodes (a, h) = some st) :
    get_available_kits env s a h = some (s, st) :=
  ensure_node_hit env s a h st hc

/-- Witness for the amended C7 at a concrete input. -/
theorem C7_query_pure_on_cached_witness :
    get_available_kits c7Env (MatrixState.init c7Env) "HUB1" 0 =
      some (MatrixState.init c7Env, c7Hub.initial_stock_per_kit) :=
  C7_query_pure_on_cached c7Env (MatrixState.init c7Env) "HUB1" 0
    c7Hub.initial_stock_per_kit rfl

end ClaimC7

section ClaimC8

/-- C8: origin debits are not clamped at zero.  At a fresh hour `n+1`, if
some debit movement for airport `a` and kit `k` is processed and the hour's
debits exceed the airport's stock (carried value plus the hour's credits),
then the stored value goes negative, `get_available_kits` returns that
negative value, and a violation record (airport, kit, hour, quantity) is
appended to the negative-inventory log. -/
theorem C8_negative_inventory_observable (env : Env) (n : Nat)
    (s : MatrixState) (a : Airport) (k : KitType)
    (hdist : env.airports.Pairwise (fun x y => x.code ≠ y.code))
    (hmax : n + 1 ≤ MAX_HOUR)
    (ha : a ∈ env.airports)
    (hnone : ∀ b ∈ env.airports, (s.nodes (b.code, n + 1)).isNone = true)
    (hprev : ∀ b ∈ env.airports, (s.nodes (b.code, n)).isSome = true)
    (hmova : ∀ m ∈ s.movements,
      (m.destination_hour = n + 1 →
        ∃ b ∈ env.airports, b.code = m.destination_airport) ∧
      (m.origin_hour = n + 1 →
        ∃ b ∈ env.airports, b.code = m.origin_airport))
    (hdeb : ∃ m ∈ s.movements, m.origin_hour = n + 1 ∧
      m.origin_airport = a.code ∧ m.kit_type = k)
    (hexceed : nodeStock s a.code n k
        + ((s.movements.filter (fun m => m.destination_hour = n + 1)).map
            (creditOf a.code k)).sum
        < ((s.movements.filter (fun m => m.origin_hour = n + 1)).map
            (debitOf a.code k)).sum) :
    ∃ s', apply_movements_for_hour env s (n + 1) = some s' ∧
      nodeStock s' a.code (n + 1) k < 0 ∧
      (get_available_kits env s' a.code (n + 1)).map (fun p => p.2 k) =
        some (nodeStock s' a.code (n + 1) k) ∧
      ∃ q, (a.code, k, n + 1, q) ∈ s'.negative_inventory := by
  have hnone' : ∀ b ∈ env.airports, s.nodes (b.code, n + 1) = none := by
    intro b hb
    exact Option.isNone_iff_eq_none.mp (hnone b hb)
  obtain ⟨s', L, happ, hmv, hneg, hframe, hsome, hval, hlog⟩ :=
    apply_fresh env n s hdist hmax hnone' hprev hmova
  have hvneg : nodeStock s' a.code (n + 1) k < 0 := by
    rw [hval a ha k]
    omega
  refine ⟨s', happ, hvneg, ?_, ?_⟩
  · exact get_available_point env s' a.code (n + 1) k (hsome a ha)
  · exact hlog a ha k hdeb hvneg

/-- Concrete setting for the C8 witness: one airport holding zero stock and
one ledger entry debiting 5 economy kits at hour 1. -/
def c8Airport : Airport where
  code := "AAA"
  is_hub := false
  initial_stock_per_kit := fun _ => 0
  processing_time_hours := fun _ => 0

def c8Env : Env where
  airports := [c8Airport]
  aircraft_types := []

def c8Movement : KitMovement where
  edge_type := .FLIGHT
  origin_airport := "AAA"
  origin_hour := 1
  destination_airport := "AAA"
  destination_hour := 2
  kit_type := .D_ECONOMY
  quantity := 5

def c8State : MatrixState :=
  (MatrixState.init c8Env).registerMovement c8Movement

/-- Witness for C8 at a concrete input. -/
theorem C8_negative_inventory_observable_witness :
    ∃ s', apply_movements_for_hour c8Env c8State 1 = some s' ∧
      nodeStock s' c8Airport.code 1 KitType.D_ECONOMY < 0 ∧
      (get_available_kits c8Env s' c8Airport.code 1).map
        (fun p => p.2 KitType.D_ECONOMY) =
        some (nodeStock s' c8Airport.code 1 KitType.D_ECONOMY) ∧
      ∃ q, (c8Airport.code, KitType.D_ECONOMY, 1, q) ∈ s'.negative_inventory :=
  C8_negative_inventory_observable c8Env 0 c8State c8Airport KitType.D_ECONOMY
    (by simp [c8Env]) (by decide) (by simp [c8Env]) (by decide) (by decide)
    (by decide) (by decide) (by decide)

end ClaimC8

section ClaimC1

/-- C1 scenario: hub HUB1 with 10 economy kits, outstation OUT1 with
economy processing time 1 hour, aircraft with economy kit capacity 50,
one flight HUB1→OUT1 departing global hour 0 and arriving hour 1. -/
def c1Hub : Airport where
  code := "HUB1"
  is_hub := true
  initial_stock_per_kit := fun k => if k = KitType.D_ECONOMY then 10 else 0
  processing_time_hours := fun _ => 1

def c1Out : Airport where
  code := "OUT1"
  is_hub := false
  initial_stock_per_kit := fun _ => 0
  processing_time_hours := fun _ => 1

def c1Acft : AircraftType where
  code := "T1"
  kit_capacity_per_class := fun k => if k = KitType.D_ECONOMY then 50 else 0

def c1Env : Env where
  airports := [c1Hub, c1Out]
  aircraft_types := [c1Acft]

def c1Flight : FlightInstance where
  flight_id := "F1"
  origin := "HUB1"
  destination := "OUT1"
  aircraft_type_code := "T1"
  planned_departure := (0, 0)
  planned_arrival := (0, 1)

/-- State after applying hour 0 and scheduling the 5-economy-kit load. -/
def c1AfterLoad : Option MatrixState := do
  let s ← apply_movements_for_hour c1Env (MatrixState.init c1Env) 0
  schedule_flight_load c1Env s c1Flight [(KitType.D_ECONOMY, 5)]

def c1At1 : Option MatrixState := do
  let s ← c1AfterLoad
  apply_movements_for_hour c1Env s 1

def c1At2 : Option MatrixState := do
  let s ← c1At1
  apply_movements_for_hour c1Env s 2

def c1At3 : Option MatrixState := do
  let s ← c1At2
  apply_movements_for_hour c1Env s 3

/-- C1 counterexample: in the claimed scenario, OUT1's economy stock after
`apply_movements_for_hour(2)` is 5 (the kits complete processing at
arrival hour 1 plus processing time 1 = hour 2), not the claimed 0. -/
theorem C1_counterexample :
    (c1At2.bind (fun s => (get_available_kits c1Env s "OUT1" 2).map
      (fun p => p.2 KitType.D_ECONOMY))) = some 5 ∧
    (c1At2.bind (fun s => (get_available_kits c1Env s "OUT1" 2).map
      (fun p => p.2 KitType.D_ECONOMY))) ≠ some 0 :=
  ⟨by decide, by decide⟩

/-- C1 amended: in the concrete scenario the accepted load is 5 economy
kits; HUB1's economy stock at hour 0 is 5 after scheduling; OUT1's economy
stock is 0 at hour 1 (in flight/processing), and is already 5 at hour 2
(arrival 1 + processing 1) and still 5 at hour 3. -/
theorem C1_scenario :
    (c1AfterLoad.map (fun s =>
      (s.movements.filter (fun m => m.edge_type = EdgeType.FLIGHT)).map
        (fun m => (m.kit_type, m.quantity)))) = some [(KitType.D_ECONOMY, 5)] ∧
    (c1AfterLoad.bind (fun s => (get_available_kits c1Env s "HUB1" 0).map
      (fun p => p.2 KitType.D_ECONOMY))) = some 5 ∧
    (c1At1.bind (fun s => (get_available_kits c1Env s "OUT1" 1).map
      (fun p => p.2 KitType.D_ECONOMY))) = some 0 ∧
    (c1At2.bind (fun s => (get_available_kits c1Env s "OUT1" 2).map
      (fun p => p.2 KitType.D_ECONOMY))) = some 5 ∧
    (c1At3.bind (fun s => (get_available_kits c1Env s "OUT1" 3).map
      (fun p => p.2 KitType.D_ECONOMY))) = some 5 := by
  refine ⟨by decide, by decide, by decide, by decide, by decide⟩

end ClaimC1

section ClaimC2Counterexample

/-- C2 counterexample scenario: arrival hour equals the departure/decision
hour (a same-hour flight) and the destination's processing time is 0, so
`A + P` equals the already-applied hour 0. -/
def c2xOut : Airport where
  code := "OUT1"
  is_hub := false
  initial_stock_per_kit := fun _ => 0
  processing_time_hours := fun _ => 0

def c2xEnv : Env where
  airports := [c1Hub, c2xOut]
  aircraft_types := [c1Acft]

def c2xFlight : FlightInstance where
  flight_id := "F1"
  origin := "HUB1"
  destination := "OUT1"
  aircraft_type_code := "T1"
  planned_departure := (0, 0)
  planned_arrival := (0, 0)

/-- Final state of the counterexample run: apply hour 0, schedule the load
(accepted, 5 kits debited from HUB1), then apply hours 1 and 2. -/
def c2xRun : Option MatrixState := do
  let s ← apply_movements_for_hour c2xEnv (MatrixState.init c2xEnv) 0
  let s ← schedule_flight_load c2xEnv s c2xFlight [(KitType.D_ECONOMY, 5)]
  let s ← apply_movements_for_hour c2xEnv s 1
  apply_movements_for_hour c2xEnv s 2

/-- C2 counterexample: a load accepted with q = 5, arrival hour A = 0 equal
to the decision hour, destination processing time P = 0 (so A + P = 0 is
within the horizon).  The claim says OUT1's stock first increases by 5 at
hour A + P = 0; in fact the movement legs at the already-applied hour 0 are
never applied and the destination's stock stays 0 at hours 0, 1 and 2 — the
kits vanish from airport stocks. -/
theorem C2_counterexample :
    (c2xRun.map (fun s =>
      (s.movements.filter (fun m => m.edge_type = EdgeType.FLIGHT)).map
        (fun m => m.quantity))) = some [5] ∧
    (c2xRun.map (fun s => nodeStock s "OUT1" 0 KitType.D_ECONOMY)) = some 0 ∧
    (c2xRun.map (fun s => nodeStock s "OUT1" 1 KitType.D_ECONOMY)) = some 0 ∧
    (c2xRun.map (fun s => nodeStock s "OUT1" 2 KitType.D_ECONOMY)) = some 0 ∧
    (c2xRun.map (fun s => nodeStock s "OUT1" 0 KitType.D_ECONOMY)) ≠ some 5 :=
  ⟨by decide, by decide, by decide, by decide, by decide⟩

end ClaimC2Counterexample

section ClaimC3Counterexample

/-- C3 counterexample: in the C1 scenario, after applying hours 0 and 1 in
order (the load scheduled at its decision hour 0), the total economy stock
across airports at hour 1 is 5 — the 5 kits in flight/processing are in no
airport's stock — while the claim's formula gives the initial total 10 plus
0 purchase quantities. -/
theorem C3_counterexample :
    (c1At1.map (fun s => totalStock c1Env s 1 KitType.D_ECONOMY)) = some 5 ∧
    totalStock c1Env (MatrixState.init c1Env) 0 KitType.D_ECONOMY = 10 ∧
    (c1At1.map (fun s => totalStock c1Env s 1 KitType.D_ECONOMY)) ≠
      some (10 + 0) :=
  ⟨by decide, by decide, by decide⟩

end ClaimC3Counterexample

section ClaimC4

/-- The per-kit quantity `schedule_flight_load` accepts: zero for skipped
requests (requested ≤ 0 or the min clamps to ≤ 0), else
`min(requested, capacity, available)`. -/
def acceptedQty (capacity avail req : Int) : Int :=
  if req ≤ 0 then 0
  else if min req (min capacity avail) ≤ 0 then 0
  else min req (min capacity avail)

/-- Quantities of the FLIGHT movements for one kit in a movement list. -/
def flightQtys (l : List KitMovement) (k : KitType) : List Int :=
  (l.filter (fun m => m.edge_type = EdgeType.FLIGHT ∧ m.kit_type = k)).map
    (fun m => m.quantity)

theorem flightQtys_nil (k : KitType) : flightQtys [] k = [] := rfl

theorem flightQtys_cons_pos (m : KitMovement) (l : List KitMovement)
    (k : KitType) (h1 : m.edge_type = EdgeType.FLIGHT) (h2 : m.kit_type = k) :
    flightQtys (m :: l) k = m.quantity :: flightQtys l k := by
  unfold flightQtys
  rw [List.filter_cons_of_pos (by simp [h1, h2])]
  rfl

theorem flightQtys_cons_neg (m : KitMovement) (l : List KitMovement)
    (k : KitType)
    (h : m.edge_type ≠ EdgeType.FLIGHT ∨ m.kit_type ≠ k) :
    flightQtys (m :: l) k = flightQtys l k := by
  unfold flightQtys
  rw [List.filter_cons_of_neg (by rcases h with h | h <;> simp [h])]

theorem no_flight_of_flightQtys_nil (l : List KitMovement) (k : KitType)
    (hq : flightQtys l k = []) :
    ∀ m ∈ l, m.edge_type = EdgeType.FLIGHT → m.kit_type ≠ k := by
  intro m hm hedge hkit
  have : l.filter (fun m => m.edge_type = EdgeType.FLIGHT ∧ m.kit_type = k)
      = [] := by
    have := congrArg List.length hq
    simp only [flightQtys, List.length_map] at this
    exact List.eq_nil_of_length_eq_zero this
  have := List.filter_eq_nil_iff.mp this m hm
  simp [hedge, hkit] at this

/-- Characterization of the per-kit loop of `schedule_flight_load` on a
request map with pairwise distinct kits: each kit contributes exactly one
FLIGHT movement of quantity `acceptedQty` when that is positive (computed
against the stock snapshot at entry, since distinct kits do not interfere)
and nothing otherwise, and every created FLIGHT movement respects the
requested quantity and the aircraft capacity. -/
theorem loadLoop_spec (env : Env) (f : FlightInstance) (acft : AircraftType)
    (depart arrival : Nat) :
    ∀ (loads : List (KitType × Int)) (s : MatrixState) (st : KitType → Int)
      (s' : MatrixState),
    (loads.map Prod.fst).Nodup →
    loadLoop env f acft depart arrival loads s st = some s' →
    ∃ new, s'.movements = s.movements ++ new ∧
      (∀ p ∈ loads, flightQtys new p.1 =
        (if 0 < acceptedQty (acft.kit_capacity_per_class p.1) (st p.1) p.2
         then [acceptedQty (acft.kit_capacity_per_class p.1) (st p.1) p.2]
         else [])) ∧
      (∀ k, (∀ p ∈ loads, p.1 ≠ k) → flightQtys new k = []) ∧
      (∀ m ∈ new, m.edge_type = EdgeType.FLIGHT →
        ∀ r, (m.kit_type, r) ∈ loads →
          m.quantity ≤ min r (acft.kit_capacity_per_class m.kit_type)) := by
  intro loads
  induction loads with
  | nil =>
    intro s st s' _ hrun
    refine ⟨[], ?_, ?_, ?_, ?_⟩
    · cases hrun; simp
    · intro p hp; cases hp
    · intro k _; rfl
    · intro m hm; cases hm
  | cons head rest ih =>
    obtain ⟨kt, req⟩ := head
    intro s st s' hnodup hrun
    have hnodup2 : (kt :: rest.map Prod.fst).Nodup := by
      simpa only [List.map_cons] using hnodup
    have hnodup' : (rest.map Prod.fst).Nodup := (List.nodup_cons.mp hnodup2).2
    have hktnotin : ∀ p ∈ rest, p.1 ≠ kt := by
      intro p hp hpk
      have hmem : p.1 ∈ rest.map Prod.fst := List.mem_map_of_mem Prod.fst hp
      rw [hpk] at hmem
      exact (List.nodup_cons.mp hnodup2).1 hmem
    by_cases hreq : req ≤ 0
    · rw [loadLoop, if_pos hreq] at hrun
      obtain ⟨new, hmv, hform, hframe, hbound⟩ := ih s st s' hnodup' hrun
      have hacc : acceptedQty (acft.kit_capacity_per_class kt) (st kt) req
          = 0 := by
        unfold acceptedQty
        rw [if_pos hreq]
      refine ⟨new, hmv, ?_, ?_, ?_⟩
      · intro p hp
        rcases List.mem_cons.mp hp with rfl | hp'
        · rw [hacc]
          simp only [lt_self_iff_false, if_false]
          exact hframe kt hktnotin
        · exact hform p hp'
      · intro k hk
        exact hframe k (fun p hp => hk p (List.mem_cons_of_mem _ hp))
      · intro m hm hedge r hr
        rcases List.mem_cons.mp hr with heq | hr'
        · exfalso
          have hknil := hframe kt hktnotin
          exact no_flight_of_flightQtys_nil new kt hknil m hm hedge
            (congrArg Prod.fst heq)
        · exact hbound m hm hedge r hr'
    · set qty := min req (min (acft.kit_capacity_per_class kt) (st kt))
        with hqty
      by_cases hqle : qty ≤ 0
      · rw [loadLoop, if_neg hreq] at hrun
        simp only [← hqty, if_pos hqle] at hrun
        obtain ⟨new, hmv, hform, hframe, hbound⟩ := ih s st s' hnodup' hrun
        have hacc : acceptedQty (acft.kit_capacity_per_class kt) (st kt) req
            = 0 := by
          unfold acceptedQty
          rw [if_neg hreq, if_pos (by rw [← hqty]; exact hqle)]
        refine ⟨new, hmv, ?_, ?_, ?_⟩
        · intro p hp
          rcases List.mem_cons.mp hp with rfl | hp'
          · rw [hacc]
            simp only [lt_self_iff_false, if_false]
            exact hframe kt hktnotin
          · exact hform p hp'
        · intro k hk
          exact hframe k (fun p hp => hk p (List.mem_cons_of_mem _ hp))
        · intro m hm hedge r hr
          rcases List.mem_cons.mp hr with heq | hr'
          · exfalso
            have hknil := hframe kt hktnotin
            exact no_flight_of_flightQtys_nil new kt hknil m hm hedge
              (congrArg Prod.fst heq)
          · exact hbound m hm hedge r hr'
      · rw [loadLoop, if_neg hreq] at hrun
        simp only [← hqty, if_neg hqle] at hrun
        rcases hfd : env.findAirport f.destination with _ | destAp
        · rw [hfd] at hrun
          cases hrun
        · rw [hfd] at hrun
          obtain ⟨new₂, hmv, hform, hframe, hbound⟩ :=
            ih _ (updateStock st kt (st kt - qty)) s' hnodup' hrun
          set fm : KitMovement :=
            { edge_type := .FLIGHT
              origin_airport := f.origin
              origin_hour := depart
              destination_airport := f.destination
              destination_hour := arrival
              kit_type := kt
              quantity := qty
              flight_id := some f.flight_id
              reason := some "flight_load" } with hfm
          set pm : KitMovement :=
            { edge_type := .PROCESSING
              origin_airport := f.destination
              origin_hour := arrival
              destination_airport := f.destination
              destination_hour :=
                min (arrival + destAp.processing_time_hours kt) MAX_HOUR
              kit_type := kt
              quantity := qty
              flight_id := some f.flight_id
              reason := some "turnaround_processing" } with hpm
          have hmv' : s'.movements = s.movements ++ (fm :: pm :: new₂) := by
            rw [hmv]
            simp [MatrixState.registerMovement, insertNode_movements]
          have hacc : acceptedQty (acft.kit_capacity_per_class kt) (st kt) req
              = qty := by
            unfold acceptedQty
            rw [if_neg hreq, if_neg (by rw [← hqty]; exact hqle)]
          refine ⟨fm :: pm :: new₂, hmv', ?_, ?_, ?_⟩
          · intro p hp
            rcases List.mem_cons.mp hp with rfl | hp'
            · show flightQtys (fm :: pm :: new₂) kt =
                if 0 < acceptedQty (acft.kit_capacity_per_class kt) (st kt) req
                then [acceptedQty (acft.kit_capacity_per_class kt) (st kt) req]
                else []
              rw [hacc, if_pos (not_le.mp hqle)]
              rw [flightQtys_cons_pos fm _ kt (by rw [hfm]) (by rw [hfm]),
                flightQtys_cons_neg pm _ kt (Or.inl (by simp [hpm])),
                hframe kt hktnotin]
            · have hpk : p.1 ≠ kt := hktnotin p hp'
              have hst' : updateStock st kt (st kt - qty) p.1 = st p.1 :=
                updateStock_other _ _ _ _ hpk
              have hres := hform p hp'
              rw [hst'] at hres
              rw [flightQtys_cons_neg fm _ p.1 (Or.inr (by
                  have hfk : fm.kit_type = kt := by rw [hfm]
                  rw [hfk]; exact Ne.symm hpk)),
                flightQtys_cons_neg pm _ p.1 (Or.inl (by simp [hpm]))]
              exact hres
          · intro k hk
            have hkkt : kt ≠ k := hk (kt, req) (List.mem_cons_self _ _)
            rw [flightQtys_cons_neg fm _ k (Or.inr (by
                have hfk : fm.kit_type = kt := by rw [hfm]
                rw [hfk]; exact hkkt)),
              flightQtys_cons_neg pm _ k (Or.inl (by simp [hpm]))]
            exact hframe k (fun p hp => hk p (List.mem_cons_of_mem _ hp))
          · intro m hm hedge r hr
            rcases List.mem_cons.mp hm with hmf | hm'
            · have hfkt : m.kit_type = kt := by rw [hmf, hfm]
              rcases List.mem_cons.mp hr with heq | hr'
              · have hrreq : r = req := by
                  have h2 := congrArg Prod.snd heq
                  simpa using h2
                have hq1 : m.quantity = qty := by rw [hmf, hfm]
                rw [hq1, hfkt, hrreq]
                have h1 : qty ≤ req := by rw [hqty]; exact min_le_left _ _
                have h2 : qty ≤ acft.kit_capacity_per_class kt := by
                  rw [hqty]
                  exact le_trans (min_le_right _ _) (min_le_left _ _)
                exact le_min h1 h2
              · exfalso
                have hcon := hktnotin (m.kit_type, r) hr'
                simp [hfkt] at hcon
            · rcases List.mem_cons.mp hm' with hmp | hm''
              · exfalso
                have hpe : m.edge_type = EdgeType.PROCESSING := by
                  rw [hmp, hpm]
                rw [hpe] at hedge
                exact EdgeType.noConfusion hedge
              · rcases List.mem_cons.mp hr with heq | hr'
                · exfalso
                  have hknil := hframe kt hktnotin
                  exact no_flight_of_flightQtys_nil new₂ kt hknil m hm'' hedge
                    (congrArg Prod.fst heq)
                · exact hbound m hm'' hedge r hr'

/-- C4: per kit, `schedule_flight_load` accepts exactly
`min(requested, aircraft capacity, origin stock at the departure hour)`,
skipping non-positive requests, and no accepted FLIGHT movement ever
exceeds `min(requested, capacity)`. -/
theorem C4_accepted_min (env : Env) (s : MatrixState) (f : FlightInstance)
    (loads : List (KitType × Int)) (acft : AircraftType) (st0 : KitType → Int)
    (hacft : env.findAircraft f.aircraft_type_code = some acft)
    (hnode : s.nodes (f.origin, f.departure_global_hour) = some st0)
    (hnodup : (loads.map Prod.fst).Nodup)
    (hsome : (schedule_flight_load env s f loads).isSome = true) :
    ∃ new, (schedule_flight_load env s f loads).map (fun t => t.movements) =
        some (s.movements ++ new) ∧
      (∀ p ∈ loads, flightQtys new p.1 =
        (if 0 < acceptedQty (acft.kit_capacity_per_class p.1) (st0 p.1) p.2
         then [acceptedQty (acft.kit_capacity_per_class p.1) (st0 p.1) p.2]
         else [])) ∧
      (∀ m ∈ new, m.edge_type = EdgeType.FLIGHT →
        ∀ r, (m.kit_type, r) ∈ loads →
          m.quantity ≤ min r (acft.kit_capacity_per_class m.kit_type)) := by
  obtain ⟨s', hs'⟩ := Option.isSome_iff_exists.mp hsome
  have hrun : loadLoop env f acft f.departure_global_hour
      f.arrival_global_hour loads s st0 = some s' := by
    have := hs'
    unfold schedule_flight_load at this
    rw [hacft] at this
    simp only [Option.bind_eq_bind, Option.some_bind,
      ensure_node_hit env s f.origin f.departure_global_hour st0 hnode] at this
    exact this
  obtain ⟨new, hmv, hform, _, hbound⟩ :=
    loadLoop_spec env f acft f.departure_global_hour f.arrival_global_hour
      loads s st0 s' hnodup hrun
  exact ⟨new, by rw [hs']; simp [hmv], hform, hbound⟩

/-- Witness for C4 at a concrete input: the C1 flight requesting 5 economy
kits against capacity 50 and stock 10. -/
theorem C4_accepted_min_witness :
    ∃ new, (schedule_flight_load c1Env (MatrixState.init c1Env) c1Flight
        [(KitType.D_ECONOMY, 5)]).map (fun t => t.movements) =
        some ((MatrixState.init c1Env).movements ++ new) ∧
      (∀ p ∈ [(KitType.D_ECONOMY, (5 : Int))], flightQtys new p.1 =
        (if 0 < acceptedQty (c1Acft.kit_capacity_per_class p.1)
            (c1Hub.initial_stock_per_kit p.1) p.2
         then [acceptedQty (c1Acft.kit_capacity_per_class p.1)
            (c1Hub.initial_stock_per_kit p.1) p.2]
         else [])) ∧
      (∀ m ∈ new, m.edge_type = EdgeType.FLIGHT →
        ∀ r, (m.kit_type, r) ∈ [(KitType.D_ECONOMY, (5 : Int))] →
          m.quantity ≤ min r (c1Acft.kit_capacity_per_class m.kit_type)) :=
  C4_accepted_min c1Env (MatrixState.init c1Env) c1Flight
    [(KitType.D_ECONOMY, 5)] c1Acft c1Hub.initial_stock_per_kit
    rfl rfl (by decide) (by decide)

end ClaimC4

section RunnerModel

/-- The hourly discipline of `SessionRunner.run`: apply the hour's movements
first, then execute the hour's decisions (which write back into the
matrix), then advance to the next hour. -/
def runScript (env : Env) (script : Nat → MatrixState → Option MatrixState) :
    Nat → Option MatrixState
  | 0 => do
    let s ← apply_movements_for_hour env (MatrixState.init env) 0
    script 0 s
  | n + 1 => do
    let s ← runScript env script n
    let s1 ← apply_movements_for_hour env s (n + 1)
    script (n + 1) s1

/-- The PURCHASE movement `schedule_purchase` registers for a positive
quantity. -/
def purchMovement (K : KitType) (Q : Int) (U : Nat) : KitMovement where
  edge_type := .PURCHASE
  origin_airport := "HUB1"
  origin_hour := U
  destination_airport := "HUB1"
  destination_hour := min (U + K.replacement_lead_time_hours) MAX_HOUR
  kit_type := K
  quantity := Q
  flight_id := none
  reason := some "purchase"

theorem schedule_purchase_noop (env : Env) (s : MatrixState) (K : KitType)
    (Q : Int) (U : Nat) (hQ : Q ≤ 0) :
    schedule_purchase env s K Q U = some s := by
  unfold schedule_purchase
  rw [if_pos hQ]

theorem schedule_purchase_eq (env : Env) (s : MatrixState) (K : KitType)
    (Q : Int) (U : Nat) (hub : Airport) (hQ : 0 < Q)
    (hhub : env.findAirport "HUB1" = some hub) (hh : hub.is_hub = true) :
    schedule_purchase env s K Q U =
      some (s.registerMovement (purchMovement K Q U)) := by
  unfold schedule_purchase
  rw [if_neg (by omega), hhub]
  simp only [hh]
  rfl

theorem lead_pos (K : KitType) : 0 < K.replacement_lead_time_hours := by
  cases K <;> decide

/-- Contribution of a single purchase — quantity `Q` of kit `K`, scheduled
by a decision at hour `Tp` calling `schedule_purchase` with purchase hour
`U` — to the hub's stored stock at hour `h`, under the hourly discipline.  A
movement leg lands only when its hour is applied after the movement was
registered, i.e. when its hour is strictly greater than `Tp`. -/
def purchTerm (K : KitType) (Q : Int) (Tp U : Nat) (a : String) (h : Nat)
    (k : KitType) : Int :=
  if 0 < Q ∧ a = "HUB1" ∧ k = K then
    (if U ≤ h ∧ Tp < U then -Q else 0)
    + (if min (U + K.replacement_lead_time_hours) MAX_HOUR ≤ h ∧
        Tp < min (U + K.replacement_lead_time_hours) MAX_HOUR then Q else 0)
  else 0

/-- Per-hour bookkeeping identity for the purchase contribution. -/
theorem purchStep_arith (K : KitType) (Q : Int) (Tp U n : Nat) (c : String)
    (k : KitType) (hreg : Tp ≤ n) (hQ : 0 < Q) :
    purchTerm K Q Tp U c (n + 1) k =
      purchTerm K Q Tp U c n k
      + (if min (U + K.replacement_lead_time_hours) MAX_HOUR = n + 1 then
          creditOf c k (purchMovement K Q U) else 0)
      - (if U = n + 1 then debitOf c k (purchMovement K Q U) else 0) := by
  by_cases hc : c = "HUB1"
  · by_cases hk : k = K
    · subst hc
      subst hk
      unfold purchTerm creditOf debitOf purchMovement
      simp only [hQ, and_self, if_pos, true_and, and_true, if_true]
      split_ifs <;> omega
    · have hK : purchTerm K Q Tp U c (n + 1) k = 0 ∧
          purchTerm K Q Tp U c n k = 0 := by
        unfold purchTerm
        rw [if_neg (by tauto), if_neg (by tauto)]
        exact ⟨rfl, rfl⟩
      have hcr : creditOf c k (purchMovement K Q U) = 0 := by
        unfold creditOf purchMovement
        exact if_neg (by rintro ⟨-, h2⟩; exact hk h2.symm)
      have hdb : debitOf c k (purchMovement K Q U) = 0 := by
        unfold debitOf purchMovement
        exact if_neg (by rintro ⟨-, h2⟩; exact hk h2.symm)
      rw [hK.1, hK.2, hcr, hdb]
      split_ifs <;> omega
  · have hK : purchTerm K Q Tp U c (n + 1) k = 0 ∧
        purchTerm K Q Tp U c n k = 0 := by
      unfold purchTerm
      rw [if_neg (by tauto), if_neg (by tauto)]
      exact ⟨rfl, rfl⟩
    have hcr : creditOf c k (purchMovement K Q U) = 0 := by
      unfold creditOf purchMovement
      exact if_neg (by rintro ⟨h1, -⟩; exact hc h1.symm)
    have hdb : debitOf c k (purchMovement K Q U) = 0 := by
      unfold debitOf purchMovement
      exact if_neg (by rintro ⟨h1, -⟩; exact hc h1.symm)
    rw [hK.1, hK.2, hcr, hdb]
    split_ifs <;> omega

/-- The purchase term vanishes while the purchase is not yet registered. -/
theorem purchTerm_zero_of_unreg (K : KitType) (Q : Int) (Tp U : Nat)
    (c : String) (h : Nat) (k : KitType) (hTpU : Tp ≤ U) (hh : h ≤ Tp) :
    purchTerm K Q Tp U c h k = 0 := by
  unfold purchTerm
  split_ifs with h1 h2 h3 h2 h3 <;> try rfl
  all_goals omega

/-- Decision script that calls `schedule_purchase(K, Q, U)` at decision
hour `Tp` and does nothing at other hours. -/
def purchScript (env : Env) (K : KitType) (Q : Int) (Tp U : Nat) :
    Nat → MatrixState → Option MatrixState :=
  fun t s => if t = Tp then schedule_purchase env s K Q U else some s

/-- Invariant of a run whose only decision is one purchase: after processing
hours `0..n` the ledger holds exactly the purchase movement once registered,
every airport is materialized exactly through hour `n`, and each stored
stock equals the initial stock plus the purchase contribution. -/
theorem purchRun_spec (env : Env) (K : KitType) (Q : Int) (Tp U : Nat)
    (hub : Airport)
    (hdist : env.airports.Pairwise (fun x y => x.code ≠ y.code))
    (hhubmem : hub ∈ env.airports)
    (hhubcode : hub.code = "HUB1")
    (hishub : hub.is_hub = true)
    (hTpU : Tp ≤ U) :
    ∀ n, n ≤ MAX_HOUR →
    ∃ s, runScript env (purchScript env K Q Tp U) n = some s ∧
      s.movements = (if Tp ≤ n ∧ 0 < Q then [purchMovement K Q U] else []) ∧
      (∀ a ∈ env.airports, ∀ h, h ≤ n → (s.nodes (a.code, h)).isSome = true) ∧
      (∀ a ∈ env.airports, ∀ h, n < h → s.nodes (a.code, h) = none) ∧
      (∀ a ∈ env.airports, ∀ h, h ≤ n → ∀ k,
        nodeStock s a.code h k =
          a.initial_stock_per_kit k + purchTerm K Q Tp U a.code h k) := by
  have hfindhub : env.findAirport "HUB1" = some hub := by
    rw [← hhubcode]
    exact find_code_self env.airports hdist hub hhubmem
  intro n
  induction n with
  | zero =>
    intro _
    have hinit_some : ∀ a ∈ env.airports,
        ((MatrixState.init env).nodes (a.code, 0)).isSome = true := by
      intro a ha
      have hfind := find_code_self env.airports hdist a ha
      simp [MatrixState.init, Env.findAirport, hfind]
    obtain ⟨s', L, happ, hmv, hneg, hframe, hsome, hval⟩ :=
      apply_cached env 0 (MatrixState.init env) (by decide) hinit_some
        (by intro m hm; cases hm)
    have hval0 : ∀ a ∈ env.airports, ∀ k,
        nodeStock s' a.code 0 k = a.initial_stock_per_kit k := by
      intro a ha k
      rw [hval a ha k]
      have hfind := find_code_self env.airports hdist a ha
      have hbase : nodeStock (MatrixState.init env) a.code 0 k =
          a.initial_stock_per_kit k := by
        simp [nodeStock, MatrixState.init, Env.findAirport, hfind]
      rw [hbase]
      simp [MatrixState.init]
    have hnone0 : ∀ a ∈ env.airports, ∀ h, 0 < h →
        s'.nodes (a.code, h) = none := by
      intro a ha h hh
      rw [hframe (a.code, h) (by omega)]
      simp [MatrixState.init]
      omega
    have hsome0 : ∀ a ∈ env.airports, ∀ h, h ≤ 0 →
        (s'.nodes (a.code, h)).isSome = true := by
      intro a ha h hh
      have : h = 0 := by omega
      subst this
      exact hsome a ha
    have hterm0 : ∀ (c : String) (k : KitType),
        purchTerm K Q Tp U c 0 k = 0 := by
      intro c k
      exact purchTerm_zero_of_unreg K Q Tp U c 0 k hTpU (by omega)
    have hrun0 : runScript env (purchScript env K Q Tp U) 0 =
        (purchScript env K Q Tp U) 0 s' := by
      simp only [runScript, happ, Option.bind_eq_bind, Option.some_bind]
    by_cases hTp : (0 : Nat) = Tp
    · by_cases hQ : 0 < Q
      · refine ⟨s'.registerMovement (purchMovement K Q U), ?_, ?_, ?_, ?_, ?_⟩
        · rw [hrun0]
          show (if (0 : Nat) = Tp then
            schedule_purchase env s' K Q U else some s') = _
          rw [if_pos hTp,
            schedule_purchase_eq env s' K Q U hub hQ hfindhub hishub]
        · have : Tp ≤ 0 ∧ 0 < Q := ⟨by omega, hQ⟩
          rw [if_pos this]
          show s'.movements ++ [purchMovement K Q U] = _
          rw [hmv]
          simp [MatrixState.init]
        · intro a ha h hh
          rw [registerMovement_nodes]
          exact hsome0 a ha h hh
        · intro a ha h hh
          rw [registerMovement_nodes]
          exact hnone0 a ha h hh
        · intro a ha h hh k
          have : h = 0 := by omega
          subst this
          have : nodeStock (s'.registerMovement (purchMovement K Q U))
              a.code 0 k = nodeStock s' a.code 0 k := by
            simp [nodeStock, registerMovement_nodes]
          rw [this, hval0 a ha k, hterm0]
          ring
      · refine ⟨s', ?_, ?_, hsome0, hnone0, ?_⟩
        · rw [hrun0]
          show (if (0 : Nat) = Tp then
            schedule_purchase env s' K Q U else some s') = _
          rw [if_pos hTp, schedule_purchase_noop env s' K Q U (by omega)]
        · rw [if_neg (by tauto), hmv]
          simp [MatrixState.init]
        · intro a ha h hh k
          have : h = 0 := by omega
          subst this
          rw [hval0 a ha k, hterm0]
          ring
    · refine ⟨s', ?_, ?_, hsome0, hnone0, ?_⟩
      · rw [hrun0]
        show (if (0 : Nat) = Tp then
          schedule_purchase env s' K Q U else some s') = _
        rw [if_neg hTp]
      · rw [if_neg (by omega), hmv]
        simp [MatrixState.init]
      · intro a ha h hh k
        have : h = 0 := by omega
        subst this
        rw [hval0 a ha k, hterm0]
        ring
  | succ n ih =>
    intro hn1
    obtain ⟨s, hrun, hmvS, hsomeS, hnoneS, hvalS⟩ := ih (by omega)
    have hmova : ∀ m ∈ s.movements,
        (m.destination_hour = n + 1 →
          ∃ a ∈ env.airports, a.code = m.destination_airport) ∧
        (m.origin_hour = n + 1 →
          ∃ a ∈ env.airports, a.code = m.origin_airport) := by
      intro m hm
      rw [hmvS] at hm
      by_cases hreg : Tp ≤ n ∧ 0 < Q
      · rw [if_pos hreg] at hm
        rcases List.mem_singleton.mp hm with rfl
        constructor
        · intro _
          exact ⟨hub, hhubmem, hhubcode⟩
        · intro _
          exact ⟨hub, hhubmem, hhubcode⟩
      · rw [if_neg hreg] at hm
        cases hm
    obtain ⟨s1, L, happ, hmv1, hneg1, hframe1, hsome1, hval1, hlog1⟩ :=
      apply_fresh env n s hdist hn1
        (fun a ha => hnoneS a ha (n + 1) (by omega))
        (fun a ha => hsomeS a ha n (by omega)) hmova
    have hval1' : ∀ a ∈ env.airports, ∀ k,
        nodeStock s1 a.code (n + 1) k =
          a.initial_stock_per_kit k + purchTerm K Q Tp U a.code (n + 1) k := by
      intro a ha k
      rw [hval1 a ha k, hvalS a ha n (by omega) k]
      by_cases hreg : Tp ≤ n ∧ 0 < Q
      · rw [hmvS, if_pos hreg]
        have hd : (purchMovement K Q U).destination_hour =
            min (U + K.replacement_lead_time_hours) MAX_HOUR := rfl
        have ho : (purchMovement K Q U).origin_hour = U := rfl
        have hcs : (([purchMovement K Q U].filter
            (fun m => m.destination_hour = n + 1)).map
              (creditOf a.code k)).sum =
            (if min (U + K.replacement_lead_time_hours) MAX_HOUR = n + 1 then
              creditOf a.code k (purchMovement K Q U) else 0) := by
          rw [List.filter_singleton]
          by_cases hrd : min (U + K.replacement_lead_time_hours) MAX_HOUR
              = n + 1
          · rw [if_pos hrd]
            simp [purchMovement, hrd]
          · rw [if_neg hrd]
            simp [purchMovement, hrd]
        have hds : (([purchMovement K Q U].filter
            (fun m => m.origin_hour = n + 1)).map
              (debitOf a.code k)).sum =
            (if U = n + 1 then debitOf a.code k (purchMovement K Q U)
             else 0) := by
          rw [List.filter_singleton]
          by_cases hou : U = n + 1
          · rw [if_pos hou]
            simp [purchMovement, hou]
          · rw [if_neg hou]
            simp [purchMovement, hou]
        rw [hcs, hds, purchStep_arith K Q Tp U n a.code k hreg.1 hreg.2]
        ring
      · rw [hmvS, if_neg hreg]
        have hsame : purchTerm K Q Tp U a.code (n + 1) k =
            purchTerm K Q Tp U a.code n k := by
          by_cases hQ : 0 < Q
          · have hTpn : n < Tp := by
              rcases Nat.lt_or_ge n Tp with h | h
              · exact h
              · exact absurd ⟨h, hQ⟩ hreg
            rw [purchTerm_zero_of_unreg K Q Tp U a.code (n + 1) k hTpU
                (by omega),
              purchTerm_zero_of_unreg K Q Tp U a.code n k hTpU (by omega)]
          · unfold purchTerm
            rw [if_neg (by tauto), if_neg (by tauto)]
        rw [hsame]
        simp
    have hrun1 : runScript env (purchScript env K Q Tp U) (n + 1) =
        (purchScript env K Q Tp U) (n + 1) s1 := by
      show (do
        let s ← runScript env (purchScript env K Q Tp U) n
        let s1 ← apply_movements_for_hour env s (n + 1)
        (purchScript env K Q Tp U) (n + 1) s1) = _
      rw [hrun]
      simp only [Option.bind_eq_bind, Option.some_bind]
      rw [happ]
      simp only [Option.some_bind]
    by_cases hTp : n + 1 = Tp
    · by_cases hQ : 0 < Q
      · refine ⟨s1.registerMovement (purchMovement K Q U), ?_, ?_, ?_, ?_, ?_⟩
        · rw [hrun1]
          show (if n + 1 = Tp then schedule_purchase env s1 K Q U
            else some s1) = _
          rw [if_pos hTp,
            schedule_purchase_eq env s1 K Q U hub hQ hfindhub hishub]
        · have hc : Tp ≤ n + 1 ∧ 0 < Q := ⟨by omega, hQ⟩
          rw [if_pos hc]
          show s1.movements ++ [purchMovement K Q U] = _
          rw [hmv1, hmvS, if_neg (by omega)]
          rfl
        · intro a ha h hh
          rw [registerMovement_nodes]
          rcases Nat.lt_or_ge h (n + 1) with hlt | hge
          · rw [hframe1 (a.code, h) (by omega)]
            exact hsomeS a ha h (by omega)
          · have : h = n + 1 := by omega
            subst this
            exact hsome1 a ha
        · intro a ha h hh
          rw [registerMovement_nodes, hframe1 (a.code, h) (by omega)]
          exact hnoneS a ha h (by omega)
        · intro a ha h hh k
          have hns : nodeStock (s1.registerMovement (purchMovement K Q U))
              a.code h k = nodeStock s1 a.code h k := by
            simp [nodeStock, registerMovement_nodes]
          rw [hns]
          rcases Nat.lt_or_ge h (n + 1) with hlt | hge
          · have hfr : nodeStock s1 a.code h k = nodeStock s a.code h k := by
              simp [nodeStock, hframe1 (a.code, h) (by omega)]
            rw [hfr]
            exact hvalS a ha h (by omega) k
          · have : h = n + 1 := by omega
            subst this
            exact hval1' a ha k
      · refine ⟨s1, ?_, ?_, ?_, ?_, ?_⟩
        · rw [hrun1]
          show (if n + 1 = Tp then schedule_purchase env s1 K Q U
            else some s1) = _
          rw [if_pos hTp, schedule_purchase_noop env s1 K Q U (by omega)]
        · rw [if_neg (by tauto), hmv1, hmvS, if_neg (by tauto)]
        · intro a ha h hh
          rcases Nat.lt_or_ge h (n + 1) with hlt | hge
          · rw [hframe1 (a.code, h) (by omega)]
            exact hsomeS a ha h (by omega)
          · have : h = n + 1 := by omega
            subst this
            exact hsome1 a ha
        · intro a ha h hh
          rw [hframe1 (a.code, h) (by omega)]
          exact hnoneS a ha h (by omega)
        · intro a ha h hh k
          rcases Nat.lt_or_ge h (n + 1) with hlt | hge
          · have hfr : nodeStock s1 a.code h k = nodeStock s a.code h k := by
              simp [nodeStock, hframe1 (a.code, h) (by omega)]
            rw [hfr]
            exact hvalS a ha h (by omega) k
          · have : h = n + 1 := by omega
            subst this
            exact hval1' a ha k
    · refine ⟨s1, ?_, ?_, ?_, ?_, ?_⟩
      · rw [hrun1]
        show (if n + 1 = Tp then schedule_purchase env s1 K Q U
          else some s1) = _
        rw [if_neg hTp]
      · rw [hmv1, hmvS]
        have : (Tp ≤ n + 1 ∧ 0 < Q) ↔ (Tp ≤ n ∧ 0 < Q) := by
          constructor
          · rintro ⟨h1, h2⟩
            exact ⟨by omega, h2⟩
          · rintro ⟨h1, h2⟩
            exact ⟨by omega, h2⟩
        by_cases hreg : Tp ≤ n ∧ 0 < Q
        · rw [if_pos hreg, if_pos (this.mpr hreg)]
        · rw [if_neg hreg, if_neg (fun hc => hreg (this.mp hc))]
      · intro a ha h hh
        rcases Nat.lt_or_ge h (n + 1) with hlt | hge
        · rw [hframe1 (a.code, h) (by omega)]
          exact hsomeS a ha h (by omega)
        · have : h = n + 1 := by omega
          subst this
          exact hsome1 a ha
      · intro a ha h hh
        rw [hframe1 (a.code, h) (by omega)]
        exact hnoneS a ha h (by omega)
      · intro a ha h hh k
        rcases Nat.lt_or_ge h (n + 1) with hlt | hge
        · have hfr : nodeStock s1 a.code h k = nodeStock s a.code h k := by
            simp [nodeStock, hframe1 (a.code, h) (by omega)]
          rw [hfr]
          exact hvalS a ha h (by omega) k
        · have : h = n + 1 := by omega
          subst this
          exact hval1' a ha k

end RunnerModel

section ClaimC5

/-- Hub-only environment used to instantiate the purchase claims. -/
def c5Hub : Airport where
  code := "HUB1"
  is_hub := true
  initial_stock_per_kit := fun _ => 0
  processing_time_hours := fun _ => 0

def c5Env : Env where
  airports := [c5Hub]
  aircraft_types := []

/-- C5 amended: `schedule_purchase(K, Q, T)` is a no-op for `Q ≤ 0`; for
`Q > 0` and decision hour `T < MAX_HOUR` under the hourly discipline
(purchase scheduled at `T` after hour `T` is applied), the hub's stock of
`K` is its initial value plus `Q` exactly from hour
`min(T + K.lead_time, MAX_HOUR)` on, and unchanged at every earlier hour;
for `T = MAX_HOUR` the clamped ready hour coincides with the already-applied
hour `T`, so the credit is never applied and the stock never increases. -/
theorem C5_purchase_lead_time (env : Env) (K : KitType) (Q : Int) (Tp n : Nat)
    (hub : Airport)
    (hdist : env.airports.Pairwise (fun x y => x.code ≠ y.code))
    (hhubmem : hub ∈ env.airports)
    (hhubcode : hub.code = "HUB1")
    (hishub : hub.is_hub = true)
    (hn : n ≤ MAX_HOUR) :
    (∀ s : MatrixState, Q ≤ 0 → schedule_purchase env s K Q Tp = some s) ∧
    (0 < Q → Tp < MAX_HOUR →
      ∃ s, runScript env (purchScript env K Q Tp Tp) n = some s ∧
        ∀ h, h ≤ n → ∀ k, nodeStock s hub.code h k =
          hub.initial_stock_per_kit k +
            (if k = K ∧ min (Tp + K.replacement_lead_time_hours) MAX_HOUR ≤ h
             then Q else 0)) ∧
    (0 < Q → Tp = MAX_HOUR →
      ∃ s, runScript env (purchScript env K Q Tp Tp) n = some s ∧
        ∀ h, h ≤ n → ∀ k, nodeStock s hub.code h k =
          hub.initial_stock_per_kit k) := by
  refine ⟨fun s hQ => schedule_purchase_noop env s K Q Tp hQ, ?_, ?_⟩
  · intro hQ hTp
    obtain ⟨s, hrun, hmv, hsome, hnone, hval⟩ :=
      purchRun_spec env K Q Tp Tp hub hdist hhubmem hhubcode hishub
        (le_refl Tp) n hn
    refine ⟨s, hrun, ?_⟩
    intro h hh k
    have hready : Tp < min (Tp + K.replacement_lead_time_hours) MAX_HOUR := by
      have hl := lead_pos K
      have hM : MAX_HOUR = 719 := rfl
      omega
    have hp : purchTerm K Q Tp Tp "HUB1" h k =
        (if k = K ∧ min (Tp + K.replacement_lead_time_hours) MAX_HOUR ≤ h
         then Q else 0) := by
      unfold purchTerm
      by_cases hk : k = K
      · rw [if_pos ⟨hQ, rfl, hk⟩, if_neg (by omega)]
        by_cases hr : min (Tp + K.replacement_lead_time_hours) MAX_HOUR ≤ h
        · rw [if_pos ⟨hr, hready⟩, if_pos ⟨hk, hr⟩]
          ring
        · rw [if_neg (by tauto), if_neg (by tauto)]
          ring
      · rw [if_neg (by tauto), if_neg (by tauto)]
    rw [hval hub hhubmem h hh k, hhubcode, hp]
  · intro hQ hTp
    obtain ⟨s, hrun, hmv, hsome, hnone, hval⟩ :=
      purchRun_spec env K Q Tp Tp hub hdist hhubmem hhubcode hishub
        (le_refl Tp) n hn
    refine ⟨s, hrun, ?_⟩
    intro h hh k
    rw [hval hub hhubmem h hh k, hhubcode]
    have hz : purchTerm K Q Tp Tp "HUB1" h k = 0 := by
      unfold purchTerm
      have hready : min (Tp + K.replacement_lead_time_hours) MAX_HOUR = Tp := by
        have := lead_pos K
        omega
      rw [hready]
      split_ifs <;> first | rfl | omega
    rw [hz]
    ring

/-- Witness for C5 at a concrete input: 7 economy kits purchased at
decision hour 2, lead time 12, run horizon 20 hours. -/
theorem C5_purchase_lead_time_witness :
    (∀ s : MatrixState, (7 : Int) ≤ 0 →
      schedule_purchase c5Env s KitType.D_ECONOMY 7 2 = some s) ∧
    ((0 : Int) < 7 → 2 < MAX_HOUR →
      ∃ s, runScript c5Env (purchScript c5Env KitType.D_ECONOMY 7 2 2) 20 =
          some s ∧
        ∀ h, h ≤ 20 → ∀ k, nodeStock s c5Hub.code h k =
          c5Hub.initial_stock_per_kit k +
            (if k = KitType.D_ECONOMY ∧
              min (2 + KitType.D_ECONOMY.replacement_lead_time_hours)
                MAX_HOUR ≤ h
             then 7 else 0)) ∧
    ((0 : Int) < 7 → 2 = MAX_HOUR →
      ∃ s, runScript c5Env (purchScript c5Env KitType.D_ECONOMY 7 2 2) 20 =
          some s ∧
        ∀ h, h ≤ 20 → ∀ k, nodeStock s c5Hub.code h k =
          c5Hub.initial_stock_per_kit k) :=
  C5_purchase_lead_time c5Env KitType.D_ECONOMY 7 2 20 c5Hub
    (by simp [c5Env]) (by simp [c5Env]) rfl rfl (by decide)

/-- C5 counterexample: at decision hour T = MAX_HOUR the ready hour clamps
to MAX_HOUR = T, an hour that was already applied when the purchase was
scheduled, so the hub's stock at hour min(T + lead, MAX_HOUR) stays at its
initial value instead of increasing by Q — the claim as stated fails at
T = MAX_HOUR, Q = 7, K = economy. -/
theorem C5_counterexample :
    ∃ s, runScript c5Env
        (purchScript c5Env KitType.D_ECONOMY 7 MAX_HOUR MAX_HOUR) MAX_HOUR =
        some s ∧
      nodeStock s c5Hub.code
        (min (MAX_HOUR + KitType.D_ECONOMY.replacement_lead_time_hours)
          MAX_HOUR) KitType.D_ECONOMY = 0 ∧
      nodeStock s c5Hub.code
        (min (MAX_HOUR + KitType.D_ECONOMY.replacement_lead_time_hours)
          MAX_HOUR) KitType.D_ECONOMY ≠
        c5Hub.initial_stock_per_kit KitType.D_ECONOMY + 7 := by
  obtain ⟨s, hrun, hmv, hsome, hnone, hval⟩ :=
    purchRun_spec c5Env KitType.D_ECONOMY 7 MAX_HOUR MAX_HOUR c5Hub
      (by simp [c5Env]) (by simp [c5Env]) rfl rfl (le_refl _) MAX_HOUR
      (le_refl _)
  have hmem : c5Hub ∈ c5Env.airports := by simp [c5Env]
  have hmle : min (MAX_HOUR + KitType.D_ECONOMY.replacement_lead_time_hours)
      MAX_HOUR ≤ MAX_HOUR := min_le_right _ _
  have hv := hval c5Hub hmem _ hmle KitType.D_ECONOMY
  have hz : purchTerm KitType.D_ECONOMY 7 MAX_HOUR MAX_HOUR c5Hub.code
      (min (MAX_HOUR + KitType.D_ECONOMY.replacement_lead_time_hours)
        MAX_HOUR) KitType.D_ECONOMY = 0 := by decide
  refine ⟨s, hrun, ?_, ?_⟩
  · rw [hv, hz]
    decide
  · rw [hv, hz]
    decide

end ClaimC5

section ClaimC10

/-- C10: a purchase of Q > 0 kits of K invoked with purchase hour U at a
decision hour Tp strictly before U — i.e. before `apply_movements_for_hour(U)`
has run — has no net effect on hub stock: its origin leg debits Q at hour U
and its ready-hour leg credits Q back, so from the ready hour on the stock
equals its value without the purchase, with a transient depression of Q on
hours [U, ready); hours before U are untouched. -/
theorem C10_purchase_before_hour_applied (env : Env) (K : KitType) (Q : Int)
    (Tp U n : Nat) (hub : Airport)
    (hdist : env.airports.Pairwise (fun x y => x.code ≠ y.code))
    (hhubmem : hub ∈ env.airports)
    (hhubcode : hub.code = "HUB1")
    (hishub : hub.is_hub = true)
    (hQ : 0 < Q) (hTpU : Tp < U) (hUn : U ≤ n) (hn : n ≤ MAX_HOUR) :
    ∃ s, runScript env (purchScript env K Q Tp U) n = some s ∧
      (∀ h, h ≤ n → min (U + K.replacement_lead_time_hours) MAX_HOUR ≤ h →
        ∀ k, nodeStock s hub.code h k = hub.initial_stock_per_kit k) ∧
      (∀ h, h ≤ n → U ≤ h →
        h < min (U + K.replacement_lead_time_hours) MAX_HOUR →
        nodeStock s hub.code h K = hub.initial_stock_per_kit K - Q) ∧
      (∀ h, h ≤ n → h < U →
        ∀ k, nodeStock s hub.code h k = hub.initial_stock_per_kit k) := by
  obtain ⟨s, hrun, hmv, hsome, hnone, hval⟩ :=
    purchRun_spec env K Q Tp U hub hdist hhubmem hhubcode hishub (by omega)
      n hn
  have hM : MAX_HOUR = 719 := rfl
  have hready : U ≤ min (U + K.replacement_lead_time_hours) MAX_HOUR := by
    omega
  refine ⟨s, hrun, ?_, ?_, ?_⟩
  · intro h hh hr k
    rw [hval hub hhubmem h hh k, hhubcode]
    have hz : purchTerm K Q Tp U "HUB1" h k = 0 := by
      unfold purchTerm
      by_cases hk : k = K
      · rw [if_pos ⟨hQ, rfl, hk⟩, if_pos ⟨by omega, hTpU⟩,
          if_pos ⟨hr, by omega⟩]
        ring
      · rw [if_neg (by tauto)]
    rw [hz]; ring
  · intro h hh hU hr
    rw [hval hub hhubmem h hh K, hhubcode]
    have hz : purchTerm K Q Tp U "HUB1" h K = -Q := by
      unfold purchTerm
      rw [if_pos ⟨hQ, rfl, rfl⟩, if_pos ⟨hU, hTpU⟩, if_neg (by omega)]
      ring
    rw [hz]; ring
  · intro h hh hU k
    rw [hval hub hhubmem h hh k, hhubcode]
    have hz : purchTerm K Q Tp U "HUB1" h k = 0 := by
      unfold purchTerm
      by_cases hk : k = K
      · rw [if_pos ⟨hQ, rfl, hk⟩, if_neg (by omega), if_neg (by omega)]
        ring
      · rw [if_neg (by tauto)]
    rw [hz]; ring

/-- Witness for C10 at a concrete input: purchase invoked at decision hour 0
with purchase hour 3, quantity 7 economy kits, run horizon 20. -/
theorem C10_purchase_before_hour_applied_witness :
    ∃ s, runScript c5Env (purchScript c5Env KitType.D_ECONOMY 7 0 3) 20 =
        some s ∧
      (∀ h, h ≤ 20 →
        min (3 + KitType.D_ECONOMY.replacement_lead_time_hours) MAX_HOUR ≤ h →
        ∀ k, nodeStock s c5Hub.code h k = c5Hub.initial_stock_per_kit k) ∧
      (∀ h, h ≤ 20 → 3 ≤ h →
        h < min (3 + KitType.D_ECONOMY.replacement_lead_time_hours) MAX_HOUR →
        nodeStock s c5Hub.code h KitType.D_ECONOMY =
          c5Hub.initial_stock_per_kit KitType.D_ECONOMY - 7) ∧
      (∀ h, h ≤ 20 → h < 3 →
        ∀ k, nodeStock s c5Hub.code h k = c5Hub.initial_stock_per_kit k) :=
  C10_purchase_before_hour_applied c5Env KitType.D_ECONOMY 7 0 3 20 c5Hub
    (by simp [c5Env]) (by simp [c5Env]) rfl rfl (by decide) (by decide)
    (by decide) (by decide)

end ClaimC10

section LoadScenario

/-- A flight instance between two airports with given departure and arrival
global hours (stored as (day, hour) pairs as in the source). -/
def mkFlight (O D ac : String) (T A : Nat) : FlightInstance where
  flight_id := "F1"
  origin := O
  destination := D
  aircraft_type_code := ac
  planned_departure := (T / 24, T % 24)
  planned_arrival := (A / 24, A % 24)

theorem mkFlight_dep (O D ac : String) (T A : Nat) :
    (mkFlight O D ac T A).departure_global_hour = T := by
  unfold mkFlight FlightInstance.departure_global_hour toGlobalHour
  simp
  omega

theorem mkFlight_arr (O D ac : String) (T A : Nat) :
    (mkFlight O D ac T A).arrival_global_hour = A := by
  unfold mkFlight FlightInstance.arrival_global_hour toGlobalHour
  simp
  omega

/-- The FLIGHT movement an accepted single-kit load creates. -/
def loadFlightMv (O D : String) (T A : Nat) (kt : KitType) (q : Int) :
    KitMovement where
  edge_type := .FLIGHT
  origin_airport := O
  origin_hour := T
  destination_airport := D
  destination_hour := A
  kit_type := kt
  quantity := q
  flight_id := some "F1"
  reason := some "flight_load"

/-- The PROCESSING movement an accepted single-kit load creates. -/
def loadProcMv (D : String) (A ready : Nat) (kt : KitType) (q : Int) :
    KitMovement where
  edge_type := .PROCESSING
  origin_airport := D
  origin_hour := A
  destination_airport := D
  destination_hour := ready
  kit_type := kt
  quantity := q
  flight_id := some "F1"
  reason := some "turnaround_processing"

/-- Contribution of one accepted flight load (quantity `q` of kit `kt`,
decision/departure hour `T`, origin `O`, destination `D`, ready hour
`ready`) to stored stocks under the hourly discipline: the origin is debited
from hour `T` on (directly at scheduling time) and the destination is
credited from the ready hour on; the arrival-hour credit and the processing
debit cancel. -/
def loadTerm (O D : String) (T ready : Nat) (kt : KitType) (q : Int)
    (a : String) (h : Nat) (k : KitType) : Int :=
  if 0 < q ∧ k = kt then
    (if a = O ∧ T ≤ h then -q else 0) + (if a = D ∧ ready ≤ h then q else 0)
  else 0

theorem loadTerm_zero_of_unreg (O D : String) (T ready : Nat) (kt : KitType)
    (q : Int) (a : String) (h : Nat) (k : KitType) (hTA : T ≤ ready)
    (hh : h < T) : loadTerm O D T ready kt q a h k = 0 := by
  unfold loadTerm
  split_ifs <;> first | rfl | omega

/-- Per-hour bookkeeping identity for the load contribution at an applied
hour `n+1` after the load is registered. -/
theorem loadStep_arith (O D : String) (T A ready : Nat) (kt : KitType)
    (q : Int) (c : String) (k : KitType) (n : Nat)
    (hreg : T ≤ n) (hq : 0 < q) (hOD : O ≠ D) (hTA : T + 1 ≤ A)
    (hAr : A ≤ ready) :
    loadTerm O D T ready kt q c (n + 1) k =
      loadTerm O D T ready kt q c n k
      + ((if A = n + 1 then creditOf c k (loadFlightMv O D T A kt q) else 0)
        + (if ready = n + 1 then creditOf c k (loadProcMv D A ready kt q)
           else 0))
      - ((if T = n + 1 then debitOf c k (loadFlightMv O D T A kt q) else 0)
        + (if A = n + 1 then debitOf c k (loadProcMv D A ready kt q)
           else 0)) := by
  have hcf : creditOf c k (loadFlightMv O D T A kt q) =
      (if D = c ∧ kt = k then q else 0) := rfl
  have hcp : creditOf c k (loadProcMv D A ready kt q) =
      (if D = c ∧ kt = k then q else 0) := rfl
  have hdf : debitOf c k (loadFlightMv O D T A kt q) =
      (if O = c ∧ kt = k then q else 0) := rfl
  have hdp : debitOf c k (loadProcMv D A ready kt q) =
      (if D = c ∧ kt = k then q else 0) := rfl
  rw [hcf, hcp, hdf, hdp]
  unfold loadTerm
  by_cases hk : k = kt
  · subst hk
    have hkk : (k = k) = True := eq_true rfl
    have hg : (0 < q ∧ k = k) = True := eq_true ⟨hq, rfl⟩
    simp only [hg, if_true]
    by_cases hcO : c = O
    · subst hcO
      have h1 : (c = c) = True := eq_true rfl
      have h2 : (D = c) = False := eq_false (fun hc => hOD hc.symm)
      have h2x : (c = D) = False := eq_false hOD
      simp only [h1, h2, h2x, hkk, true_and, and_true, false_and,
        and_false, if_false, if_true]
      split_ifs <;> omega
    · by_cases hcD : c = D
      · subst hcD
        have h1 : (c = c) = True := eq_true rfl
        have h2 : (c = O) = False := eq_false (fun hc => hOD hc.symm)
        have h4 : (O = c) = False := eq_false (fun hc => hOD hc)
        simp only [h1, h2, h4, hkk, true_and, and_true, false_and,
          and_false, if_false, if_true]
        split_ifs <;> omega
      · have h2 : (c = O) = False := eq_false hcO
        have h5 : (c = D) = False := eq_false hcD
        have h4 : (O = c) = False := eq_false (fun hc => hcO hc.symm)
        have h6 : (D = c) = False := eq_false (fun hc => hcD hc.symm)
        simp only [h2, h4, h5, h6, false_and, if_false]
        omega
  · have hg : (0 < q ∧ k = kt) = False := eq_false (fun hc => hk hc.2)
    have h7 : (kt = k) = False := eq_false (fun hc => hk hc.symm)
    simp only [hg, h7, and_false, if_false]
    omega

/-- Closed form of `schedule_flight_load` for a single-kit request on a
cached origin node: either the acceptance min-clamp is non-positive and the
state is unchanged, or the origin node is debited and the FLIGHT and
PROCESSING movements are registered. -/
theorem schedule_mkFlight_single (env : Env) (s : MatrixState)
    (O D ac : String) (T A : Nat) (kt : KitType) (req : Int)
    (st : KitType → Int) (acft : AircraftType) (destAp : Airport)
    (hacft : env.findAircraft ac = some acft)
    (hnode : s.nodes (O, T) = some st)
    (hdest : env.findAirport D = some destAp) :
    schedule_flight_load env s (mkFlight O D ac T A) [(kt, req)] =
      (if 0 < acceptedQty (acft.kit_capacity_per_class kt) (st kt) req then
        some (((s.insertNode O T (updateStock st kt
            (st kt - acceptedQty (acft.kit_capacity_per_class kt) (st kt)
              req))).registerMovement
            (loadFlightMv O D T A kt
              (acceptedQty (acft.kit_capacity_per_class kt) (st kt)
                req))).registerMovement
            (loadProcMv D A (min (A + destAp.processing_time_hours kt)
              MAX_HOUR) kt
              (acceptedQty (acft.kit_capacity_per_class kt) (st kt) req)))
      else some s) := by
  unfold schedule_flight_load
  have hac : (mkFlight O D ac T A).aircraft_type_code = ac := rfl
  have ho : (mkFlight O D ac T A).origin = O := rfl
  have hd : (mkFlight O D ac T A).destination = D := rfl
  rw [hac, hacft]
  simp only [Option.bind_eq_bind, Option.some_bind]
  rw [mkFlight_dep, mkFlight_arr, ho, ensure_node_hit env s O T st hnode]
  simp only [Option.some_bind]
  by_cases hreq : req ≤ 0
  · rw [loadLoop, if_pos hreq]
    have hacc : acceptedQty (acft.kit_capacity_per_class kt) (st kt) req
        = 0 := by
      unfold acceptedQty
      rw [if_pos hreq]
    rw [hacc, if_neg (by omega)]
    rfl
  · by_cases hqle : min req (min (acft.kit_capacity_per_class kt) (st kt)) ≤ 0
    · rw [loadLoop, if_neg hreq, if_pos hqle]
      have hacc : acceptedQty (acft.kit_capacity_per_class kt) (st kt) req
          = 0 := by
        unfold acceptedQty
        rw [if_neg hreq, if_pos hqle]
      rw [hacc, if_neg (by omega)]
      rfl
    · have hacc : acceptedQty (acft.kit_capacity_per_class kt) (st kt) req
          = min req (min (acft.kit_capacity_per_class kt) (st kt)) := by
        unfold acceptedQty
        rw [if_neg hreq, if_neg hqle]
      rw [loadLoop, if_neg hreq, if_neg hqle, hd, hdest, hacc,
        if_pos (by omega)]
      rfl

/-- Decision script of the combined scenario: one flight load at decision
hour `T` (the flight's departure hour) and one purchase at decision hour
`Tp` with purchase hour `U`. -/
def bothScript (env : Env) (O D ac : String) (T A : Nat) (kt : KitType)
    (req : Int) (K : KitType) (Q : Int) (Tp U : Nat) :
    Nat → MatrixState → Option MatrixState :=
  fun t s =>
    Option.bind
      (if t = T then
        schedule_flight_load env s (mkFlight O D ac T A) [(kt, req)]
      else some s)
      (fun s => if t = Tp then schedule_purchase env s K Q U else some s)

/-- Effect of the purchase part of the script on the ledger: it appends the
purchase movement exactly at hour `Tp` for a positive quantity and leaves
the node cache alone. -/
theorem purchIf_step (env : Env) (K : KitType) (Q : Int) (Tp U t : Nat)
    (s' : MatrixState)
    (hdist : env.airports.Pairwise (fun x y => x.code ≠ y.code))
    (hhub : 0 < Q → ∃ hb ∈ env.airports, hb.code = "HUB1" ∧
      hb.is_hub = true) :
    ∃ s2, (if t = Tp then schedule_purchase env s' K Q U else some s') =
        some s2 ∧
      s2.movements = s'.movements ++
        (if t = Tp ∧ 0 < Q then [purchMovement K Q U] else []) ∧
      s2.nodes = s'.nodes := by
  by_cases hTp : t = Tp
  · by_cases hQ : 0 < Q
    · obtain ⟨hb, hbm, hbc, hbh⟩ := hhub hQ
      have hfind : env.findAirport "HUB1" = some hb := by
        rw [← hbc]
        exact find_code_self env.airports hdist hb hbm
      rw [if_pos hTp, schedule_purchase_eq env s' K Q U hb hQ hfind hbh]
      refine ⟨_, rfl, ?_, rfl⟩
      rw [if_pos ⟨hTp, hQ⟩]
      rfl
    · rw [if_pos hTp, schedule_purchase_noop env s' K Q U (by omega)]
      refine ⟨s', rfl, ?_, rfl⟩
      rw [if_neg (by tauto)]
      simp
  · rw [if_neg hTp]
    refine ⟨s', rfl, ?_, rfl⟩
    rw [if_neg (by tauto)]
    simp

/-- Codes identify airports in a distinct-code list. -/
theorem purch_append_collapse (mv : KitMovement) (Tp t : Nat) (Q : Int) :
    (if Tp < t ∧ 0 < Q then [mv] else []) ++
      (if t = Tp ∧ 0 < Q then [mv] else []) =
      (if Tp ≤ t ∧ 0 < Q then [mv] else []) := by
  by_cases h3 : 0 < Q
  · by_cases h1 : Tp < t
    · rw [if_pos ⟨h1, h3⟩, if_neg (by rintro ⟨h2, -⟩; omega),
        if_pos ⟨by omega, h3⟩]
      rfl
    · by_cases h2 : t = Tp
      · rw [if_neg (by tauto), if_pos ⟨h2, h3⟩, if_pos ⟨by omega, h3⟩]
        rfl
      · rw [if_neg (by tauto), if_neg (by tauto),
          if_neg (by rintro ⟨hh, -⟩; omega)]
        rfl
  · rw [if_neg (by tauto), if_neg (by tauto), if_neg (by tauto)]
    rfl

/-- In a distinct-code airport list, codes identify airports. -/
theorem code_inj (l : List Airport)
    (hd : l.Pairwise (fun x y => x.code ≠ y.code)) :
    ∀ a ∈ l, ∀ b ∈ l, a.code = b.code → a = b := by
  induction l with
  | nil => intro a ha; cases ha
  | cons x t ih =>
    intro a ha b hb hab
    rcases List.mem_cons.mp ha with rfl | ha'
    · rcases List.mem_cons.mp hb with rfl | hb'
      · rfl
      · exact absurd hab ((List.pairwise_cons.mp hd).1 b hb')
    · rcases List.mem_cons.mp hb with rfl | hb'
      · exact absurd hab.symm ((List.pairwise_cons.mp hd).1 a ha')
      · exact ih (List.pairwise_cons.mp hd).2 a ha' b hb' hab

/-- One decision step of the combined scenario: starting from the state
right after `apply_movements_for_hour t` — whose stocks satisfy the target
formula except for the not-yet-applied direct origin debit when `t = T` —
the script performs the load (debiting the origin and registering the two
load movements when accepted) and the purchase, producing the target ledger
and stock formula. -/
theorem bothScript_step (env : Env) (O D ac : String) (apO apD : Airport)
    (acft : AircraftType) (T A : Nat) (kt : KitType) (req : Int) (q : Int)
    (ready : Nat) (K : KitType) (Q : Int) (Tp U t : Nat) (s1 : MatrixState)
    (hdist : env.airports.Pairwise (fun x y => x.code ≠ y.code))
    (hOmem : apO ∈ env.airports) (hOcode : apO.code = O)
    (hDmem : apD ∈ env.airports) (hDcode : apD.code = D)
    (hOD : O ≠ D)
    (hacft : env.findAircraft ac = some acft)
    (hhub : 0 < Q → ∃ hb ∈ env.airports, hb.code = "HUB1" ∧
      hb.is_hub = true)
    (hq_def : q = acceptedQty (acft.kit_capacity_per_class kt)
      (apO.initial_stock_per_kit kt) req)
    (hready_def : ready = min (A + apD.processing_time_hours kt) MAX_HOUR)
    (hTA : T + 1 ≤ A)
    (hAP : A + apD.processing_time_hours kt ≤ MAX_HOUR)
    (hTTp : T ≤ Tp) (hTpU : Tp ≤ U)
    (hsome1 : ∀ a ∈ env.airports, ∀ h, h ≤ t →
      (s1.nodes (a.code, h)).isSome = true)
    (hnone1 : ∀ a ∈ env.airports, ∀ h, t < h → s1.nodes (a.code, h) = none)
    (hmv1 : s1.movements =
      (if T < t ∧ 0 < q then
        [loadFlightMv O D T A kt q, loadProcMv D A ready kt q] else [])
      ++ (if Tp < t ∧ 0 < Q then [purchMovement K Q U] else []))
    (hval1 : ∀ a ∈ env.airports, ∀ h, h ≤ t → ∀ k,
      nodeStock s1 a.code h k =
        a.initial_stock_per_kit k + loadTerm O D T ready kt q a.code h k
        + purchTerm K Q Tp U a.code h k
        + (if 0 < q ∧ a.code = O ∧ k = kt ∧ T = t ∧ h = t then q else 0)) :
    ∃ s2, bothScript env O D ac T A kt req K Q Tp U t s1 = some s2 ∧
      s2.movements =
        (if T ≤ t ∧ 0 < q then
          [loadFlightMv O D T A kt q, loadProcMv D A ready kt q] else [])
        ++ (if Tp ≤ t ∧ 0 < Q then [purchMovement K Q U] else []) ∧
      (∀ a ∈ env.airports, ∀ h, h ≤ t →
        (s2.nodes (a.code, h)).isSome = true) ∧
      (∀ a ∈ env.airports, ∀ h, t < h → s2.nodes (a.code, h) = none) ∧
      (∀ a ∈ env.airports, ∀ h, h ≤ t → ∀ k,
        nodeStock s2 a.code h k =
          a.initial_stock_per_kit k + loadTerm O D T ready kt q a.code h k
          + purchTerm K Q Tp U a.code h k) := by
  have hMAX : MAX_HOUR = 719 := rfl
  -- analyse the load part, producing s' with the final-form facts
  suffices hload : ∃ s', (if t = T then
      schedule_flight_load env s1 (mkFlight O D ac T A) [(kt, req)]
    else some s1) = some s' ∧
      s'.movements =
        (if T ≤ t ∧ 0 < q then
          [loadFlightMv O D T A kt q, loadProcMv D A ready kt q] else [])
        ++ (if Tp < t ∧ 0 < Q then [purchMovement K Q U] else []) ∧
      (∀ a ∈ env.airports, ∀ h, h ≤ t →
        (s'.nodes (a.code, h)).isSome = true) ∧
      (∀ a ∈ env.airports, ∀ h, t < h → s'.nodes (a.code, h) = none) ∧
      (∀ a ∈ env.airports, ∀ h, h ≤ t → ∀ k,
        nodeStock s' a.code h k =
          a.initial_stock_per_kit k + loadTerm O D T ready kt q a.code h k
          + purchTerm K Q Tp U a.code h k) by
    obtain ⟨s', hs', hmv', hsome', hnone', hval'⟩ := hload
    obtain ⟨s2, hs2, hmv2, hnodes2⟩ :=
      purchIf_step env K Q Tp U t s' hdist hhub
    refine ⟨s2, ?_, ?_, ?_, ?_, ?_⟩
    · unfold bothScript
      rw [hs', Option.some_bind]
      exact hs2
    · rw [hmv2, hmv', List.append_assoc, purch_append_collapse]
    · intro a ha h hh
      rw [hnodes2]
      exact hsome' a ha h hh
    · intro a ha h hh
      rw [hnodes2]
      exact hnone' a ha h hh
    · intro a ha h hh k
      have : nodeStock s2 a.code h k = nodeStock s' a.code h k := by
        simp [nodeStock, hnodes2]
      rw [this]
      exact hval' a ha h hh k
  by_cases hT : t = T
  · subst hT
    rw [if_pos rfl]
    have hpurchPre : (if Tp < t ∧ 0 < Q then [purchMovement K Q U] else [])
        = [] := by
      rw [if_neg (by rintro ⟨h1, -⟩; omega)]
    have hloadPre : (if t < t ∧ 0 < q then
        [loadFlightMv O D t A kt q, loadProcMv D A ready kt q] else [])
        = [] := by
      rw [if_neg (by rintro ⟨h1, -⟩; omega)]
    have hmv1' : s1.movements = [] := by
      rw [hmv1, hloadPre, hpurchPre]
      rfl
    have hsOT : (s1.nodes (O, t)).isSome = true := by
      rw [← hOcode]
      exact hsome1 apO hOmem t (le_refl t)
    obtain ⟨st, hst⟩ := Option.isSome_iff_exists.mp hsOT
    have hpT : ∀ k', purchTerm K Q Tp U O t k' = 0 := fun k' =>
      purchTerm_zero_of_unreg K Q Tp U O t k' hTpU hTTp
    have hreadyT : ¬ ready ≤ t := by
      rw [hready_def]
      omega
    have hltO : ∀ k', loadTerm O D t ready kt q O t k' =
        (if 0 < q ∧ k' = kt then -q else 0) := by
      intro k'
      unfold loadTerm
      by_cases hg : 0 < q ∧ k' = kt
      · rw [if_pos hg, if_pos ⟨rfl, by omega⟩,
          if_neg (by rintro ⟨h1, -⟩; exact hOD h1), if_pos hg]
        ring
      · rw [if_neg hg, if_neg hg]
    have hstv : ∀ k', st k' = apO.initial_stock_per_kit k' +
        (if 0 < q ∧ k' = kt then -q else 0) +
        (if 0 < q ∧ k' = kt then q else 0) := by
      intro k'
      have hv := hval1 apO hOmem t (le_refl t) k'
      rw [hOcode] at hv
      have hns : nodeStock s1 O t k' = st k' := by
        simp [nodeStock, hst]
      rw [hns, hltO k', hpT k'] at hv
      simp only [eq_self_iff_true, true_and, and_true] at hv
      rw [hv]
      ring
    have hstkt : st kt = apO.initial_stock_per_kit kt := by
      rw [hstv kt]
      by_cases hg : 0 < q
      · rw [if_pos ⟨hg, rfl⟩, if_pos ⟨hg, rfl⟩]
        ring
      · rw [if_neg (by tauto), if_neg (by tauto)]
        ring
    have hstother : ∀ k', k' ≠ kt →
        st k' = apO.initial_stock_per_kit k' := by
      intro k' hk'
      rw [hstv k', if_neg (by tauto), if_neg (by tauto)]
      ring
    have hfindD : env.findAirport D = some apD := by
      rw [← hDcode]
      exact find_code_self env.airports hdist apD hDmem
    have hsched := schedule_mkFlight_single env s1 O D ac t A kt req st acft
      apD hacft hst hfindD
    rw [hstkt, ← hq_def, ← hready_def] at hsched
    by_cases hq0 : 0 < q
    · rw [if_pos hq0] at hsched
      refine ⟨_, hsched, ?_, ?_, ?_, ?_⟩
      · show (((s1.insertNode O t (updateStock st kt
            (apO.initial_stock_per_kit kt - q))).registerMovement
            (loadFlightMv O D t A kt q)).registerMovement
            (loadProcMv D A ready kt q)).movements = _
        rw [hpurchPre]
        show s1.movements ++ [loadFlightMv O D t A kt q] ++
          [loadProcMv D A ready kt q] = _
        rw [hmv1', if_pos ⟨le_refl t, hq0⟩]
        rfl
      · intro a ha h hh
        show ((((s1.insertNode O t _).registerMovement
            _).registerMovement _).nodes (a.code, h)).isSome = true
        rw [registerMovement_nodes, registerMovement_nodes]
        by_cases hkey : (a.code, h) = ((O, t) : String × Nat)
        · rw [hkey, insertNode_nodes_self]
          rfl
        · rw [insertNode_nodes_other _ _ _ _ _ hkey]
          exact hsome1 a ha h hh
      · intro a ha h hh
        show (((s1.insertNode O t _).registerMovement
            _).registerMovement _).nodes (a.code, h) = none
        rw [registerMovement_nodes, registerMovement_nodes,
          insertNode_nodes_other _ _ _ _ _ (by
            rintro hkey
            have : h = t := congrArg Prod.snd hkey
            omega)]
        exact hnone1 a ha h hh
      · intro a ha h hh k
        have hnodeseq : (((s1.insertNode O t (updateStock st kt
            (apO.initial_stock_per_kit kt - q))).registerMovement
            (loadFlightMv O D t A kt q)).registerMovement
            (loadProcMv D A ready kt q)).nodes =
            (s1.insertNode O t (updateStock st kt
              (apO.initial_stock_per_kit kt - q))).nodes := by
          rw [registerMovement_nodes, registerMovement_nodes]
        by_cases hkey : (a.code, h) = ((O, t) : String × Nat)
        · have hac : a.code = O := congrArg Prod.fst hkey
          have haO : a = apO := code_inj env.airports hdist a ha apO hOmem
            (by rw [hac, hOcode])
          have hht : h = t := congrArg Prod.snd hkey
          subst hht
          rw [show nodeStock _ a.code h k = updateStock st kt
              (apO.initial_stock_per_kit kt - q) k from by
            simp [nodeStock, hnodeseq, hac, insertNode_nodes_self]]
          rw [hac, hltO k, hpT k]
          by_cases hk : k = kt
          · subst hk
            rw [updateStock_self, if_pos ⟨hq0, rfl⟩, haO]
            ring
          · rw [updateStock_other _ _ _ _ hk, if_neg (by tauto),
              hstother k hk, haO]
            ring
        · rw [show nodeStock _ a.code h k = nodeStock s1 a.code h k from by
            simp [nodeStock, hnodeseq, insertNode_nodes_other _ _ _ _ _ hkey]]
          rw [hval1 a ha h hh k, if_neg (by
            rintro ⟨-, h1, -, -, h2⟩
            exact hkey (by rw [h1, h2]))]
          ring
    · rw [if_neg hq0] at hsched
      refine ⟨s1, hsched, ?_, hsome1, hnone1, ?_⟩
      · rw [hmv1', if_neg (by tauto), hpurchPre]
        rfl
      · intro a ha h hh k
        rw [hval1 a ha h hh k, if_neg (by rintro ⟨h1, -⟩; exact hq0 h1)]
        ring
  · rw [if_neg hT]
    refine ⟨s1, rfl, ?_, hsome1, hnone1, ?_⟩
    · rw [hmv1]
      by_cases hq0 : 0 < q
      · by_cases hTt : T < t
        · have h1 : (T < t ∧ 0 < q) = True := eq_true ⟨hTt, hq0⟩
          have h2 : (T ≤ t ∧ 0 < q) = True := eq_true ⟨by omega, hq0⟩
          simp only [h1, h2, if_true]
        · have hTt2 : ¬ T ≤ t := by omega
          have h1 : (T < t ∧ 0 < q) = False :=
            eq_false (by rintro ⟨h3, -⟩; omega)
          have h2 : (T ≤ t ∧ 0 < q) = False :=
            eq_false (by rintro ⟨h3, -⟩; exact hTt2 h3)
          simp only [h1, h2, if_false]
      · have h1 : (T < t ∧ 0 < q) = False :=
          eq_false (by rintro ⟨-, h3⟩; exact hq0 h3)
        have h2 : (T ≤ t ∧ 0 < q) = False :=
          eq_false (by rintro ⟨-, h3⟩; exact hq0 h3)
        simp only [h1, h2, if_false]
    · intro a ha h hh k
      rw [hval1 a ha h hh k, if_neg (by
        rintro ⟨-, -, -, h1, -⟩
        exact hT h1.symm)]
      ring

/-- Below the decision hour the load contribution reduces to the
still-pending direct origin debit. -/
theorem loadTerm_pre (O D : String) (T ready : Nat) (kt : KitType)
    (q : Int) (c : String) (t : Nat) (k : KitType)
    (hTr : T < ready) (ht : t ≤ T) :
    loadTerm O D T ready kt q c t k
      = -(if 0 < q ∧ c = O ∧ k = kt ∧ T = t then q else 0) := by
  unfold loadTerm
  have hrd : (c = D ∧ ready ≤ t) = False :=
    eq_false (by rintro ⟨-, h2⟩; omega)
  by_cases hg : 0 < q ∧ k = kt
  · have hgt : (0 < q ∧ k = kt) = True := eq_true hg
    by_cases hO : c = O ∧ T ≤ t
    · have hOt : (c = O ∧ T ≤ t) = True := eq_true hO
      have hpt : (0 < q ∧ c = O ∧ k = kt ∧ T = t) = True :=
        eq_true ⟨hg.1, hO.1, hg.2, by omega⟩
      simp only [hgt, hOt, hrd, hpt, if_true, if_false]
      ring
    · have hOf : (c = O ∧ T ≤ t) = False := eq_false hO
      have hpf : (0 < q ∧ c = O ∧ k = kt ∧ T = t) = False :=
        eq_false (by rintro ⟨-, h2, -, h4⟩; exact hO ⟨h2, by omega⟩)
      simp only [hgt, hOf, hrd, hpf, if_true, if_false]
      ring
  · have hgf : (0 < q ∧ k = kt) = False := eq_false hg
    have hpf : (0 < q ∧ c = O ∧ k = kt ∧ T = t) = False :=
      eq_false (by rintro ⟨h1, -, h3, -⟩; exact hg ⟨h1, h3⟩)
    simp only [hgf, hpf, if_false]
    ring

/-- While the load is not yet registered, its contribution together with
the pending direct debit is constant across the hour step. -/
theorem loadTerm_same_of_unreg (O D : String) (T ready : Nat) (kt : KitType)
    (q : Int) (c : String) (k : KitType) (n : Nat) (hTr : T < ready)
    (hnreg : ¬ (T ≤ n ∧ 0 < q)) :
    loadTerm O D T ready kt q c (n + 1) k
      + (if 0 < q ∧ c = O ∧ k = kt ∧ T = n + 1 then q else 0)
      = loadTerm O D T ready kt q c n k := by
  by_cases hq : 0 < q
  · have hTn : n < T := by
      rcases Nat.lt_or_ge n T with h | h
      · exact h
      · exact absurd ⟨h, hq⟩ hnreg
    have hf : (0 < q ∧ c = O ∧ k = kt ∧ T = n) = False :=
      eq_false (by rintro ⟨-, -, -, h4⟩; omega)
    rw [loadTerm_pre O D T ready kt q c (n + 1) k hTr (by omega),
      loadTerm_pre O D T ready kt q c n k hTr (by omega)]
    simp only [hf, if_false]
    ring
  · have h0 : ∀ t, loadTerm O D T ready kt q c t k = 0 := by
      intro t
      unfold loadTerm
      rw [if_neg (by rintro ⟨h1, -⟩; exact hq h1)]
    have hpf : (0 < q ∧ c = O ∧ k = kt ∧ T = n + 1) = False :=
      eq_false (by rintro ⟨h1, -⟩; exact hq h1)
    rw [h0 (n + 1), h0 n]
    simp only [hpf, if_false]
    ring

/-- While the purchase is not yet registered, its contribution is constant
across the hour step. -/
theorem purchTerm_same_of_unreg (K : KitType) (Q : Int) (Tp U : Nat)
    (c : String) (k : KitType) (n : Nat) (hTpU : Tp ≤ U)
    (hnreg : ¬ (Tp ≤ n ∧ 0 < Q)) :
    purchTerm K Q Tp U c (n + 1) k = purchTerm K Q Tp U c n k := by
  by_cases hQ : 0 < Q
  · have hTpn : n < Tp := by
      rcases Nat.lt_or_ge n Tp with h | h
      · exact h
      · exact absurd ⟨h, hQ⟩ hnreg
    rw [purchTerm_zero_of_unreg K Q Tp U c (n + 1) k hTpU (by omega),
      purchTerm_zero_of_unreg K Q Tp U c n k hTpU (by omega)]
  · unfold purchTerm
    have hGf : (0 < Q ∧ c = "HUB1" ∧ k = K) = False :=
      eq_false (by rintro ⟨h1, -⟩; exact hQ h1)
    simp only [hGf, if_false]

/-- Sum of a mapped destination-hour filter over a two-movement list. -/
theorem destFilterPairSum (m1 m2 : KitMovement) (n1 : Nat)
    (f : KitMovement → Int) :
    (([m1, m2].filter (fun m => m.destination_hour = n1)).map f).sum =
      (if m1.destination_hour = n1 then f m1 else 0)
      + (if m2.destination_hour = n1 then f m2 else 0) := by
  by_cases h1 : m1.destination_hour = n1 <;>
    by_cases h2 : m2.destination_hour = n1 <;>
      simp [List.filter, h1, h2]

/-- Sum of a mapped origin-hour filter over a two-movement list. -/
theorem origFilterPairSum (m1 m2 : KitMovement) (n1 : Nat)
    (f : KitMovement → Int) :
    (([m1, m2].filter (fun m => m.origin_hour = n1)).map f).sum =
      (if m1.origin_hour = n1 then f m1 else 0)
      + (if m2.origin_hour = n1 then f m2 else 0) := by
  by_cases h1 : m1.origin_hour = n1 <;>
    by_cases h2 : m2.origin_hour = n1 <;>
      simp [List.filter, h1, h2]

/-- Sum of a mapped destination-hour filter over a one-movement list. -/
theorem destFilterSingleSum (m1 : KitMovement) (n1 : Nat)
    (f : KitMovement → Int) :
    (([m1].filter (fun m => m.destination_hour = n1)).map f).sum =
      (if m1.destination_hour = n1 then f m1 else 0) := by
  by_cases h1 : m1.destination_hour = n1 <;> simp [List.filter, h1]

/-- Sum of a mapped origin-hour filter over a one-movement list. -/
theorem origFilterSingleSum (m1 : KitMovement) (n1 : Nat)
    (f : KitMovement → Int) :
    (([m1].filter (fun m => m.origin_hour = n1)).map f).sum =
      (if m1.origin_hour = n1 then f m1 else 0) := by
  by_cases h1 : m1.origin_hour = n1 <;> simp [List.filter, h1]

/-- Crossing hour `n + 1`: the credits and debits the scenario ledger
contributes at that hour advance the load and purchase stock contributions
by one hour, up to the still-pending direct debit of a load decided exactly
at `n + 1`. -/
theorem bothLedger_delta (O D : String) (T A ready : Nat) (kt : KitType)
    (q : Int) (K : KitType) (Q : Int) (Tp U : Nat) (c : String)
    (k : KitType) (n : Nat) (hOD : O ≠ D) (hTA : T + 1 ≤ A)
    (hAr : A ≤ ready) (hTpU : Tp ≤ U) :
    loadTerm O D T ready kt q c (n + 1) k + purchTerm K Q Tp U c (n + 1) k
      + (if 0 < q ∧ c = O ∧ k = kt ∧ T = n + 1 then q else 0) =
    loadTerm O D T ready kt q c n k + purchTerm K Q Tp U c n k
      + ((((if T ≤ n ∧ 0 < q then
          [loadFlightMv O D T A kt q, loadProcMv D A ready kt q]
        else []) ++
        (if Tp ≤ n ∧ 0 < Q then [purchMovement K Q U] else [])).filter
          (fun m => m.destination_hour = n + 1)).map (creditOf c k)).sum
      - ((((if T ≤ n ∧ 0 < q then
          [loadFlightMv O D T A kt q, loadProcMv D A ready kt q]
        else []) ++
        (if Tp ≤ n ∧ 0 < Q then [purchMovement K Q U] else [])).filter
          (fun m => m.origin_hour = n + 1)).map (debitOf c k)).sum := by
  have hTr : T < ready := by omega
  have hfd : (loadFlightMv O D T A kt q).destination_hour = A := rfl
  have hfo : (loadFlightMv O D T A kt q).origin_hour = T := rfl
  have hpd : (loadProcMv D A ready kt q).destination_hour = ready := rfl
  have hpo : (loadProcMv D A ready kt q).origin_hour = A := rfl
  have hPd : (purchMovement K Q U).destination_hour =
      min (U + K.replacement_lead_time_hours) MAX_HOUR := rfl
  have hPo : (purchMovement K Q U).origin_hour = U := rfl
  rw [List.filter_append, List.filter_append, List.map_append,
    List.map_append, List.sum_append, List.sum_append]
  by_cases hL : T ≤ n ∧ 0 < q
  · rw [if_pos hL,
      destFilterPairSum (loadFlightMv O D T A kt q)
        (loadProcMv D A ready kt q) (n + 1) (creditOf c k),
      origFilterPairSum (loadFlightMv O D T A kt q)
        (loadProcMv D A ready kt q) (n + 1) (debitOf c k),
      hfd, hfo, hpd, hpo]
    have hLs := loadStep_arith O D T A ready kt q c k n hL.1 hL.2 hOD hTA hAr
    have hpend : (0 < q ∧ c = O ∧ k = kt ∧ T = n + 1) = False :=
      eq_false (by rintro ⟨-, -, -, h4⟩; omega)
    by_cases hP : Tp ≤ n ∧ 0 < Q
    · rw [if_pos hP,
        destFilterSingleSum (purchMovement K Q U) (n + 1) (creditOf c k),
        origFilterSingleSum (purchMovement K Q U) (n + 1) (debitOf c k),
        hPd, hPo]
      have hPs := purchStep_arith K Q Tp U n c k hP.1 hP.2
      simp only [hpend, if_false]
      linarith [hLs, hPs]
    · rw [if_neg hP]
      simp only [List.filter_nil, List.map_nil, List.sum_nil]
      have hPs := purchTerm_same_of_unreg K Q Tp U c k n hTpU hP
      simp only [hpend, if_false]
      linarith [hLs, hPs]
  · rw [if_neg hL]
    simp only [List.filter_nil, List.map_nil, List.sum_nil]
    have hLs := loadTerm_same_of_unreg O D T ready kt q c k n hTr hL
    by_cases hP : Tp ≤ n ∧ 0 < Q
    · rw [if_pos hP,
        destFilterSingleSum (purchMovement K Q U) (n + 1) (creditOf c k),
        origFilterSingleSum (purchMovement K Q U) (n + 1) (debitOf c k),
        hPd, hPo]
      have hPs := purchStep_arith K Q Tp U n c k hP.1 hP.2
      linarith [hLs, hPs]
    · rw [if_neg hP]
      simp only [List.filter_nil, List.map_nil, List.sum_nil]
      have hPs := purchTerm_same_of_unreg K Q Tp U c k n hTpU hP
      linarith [hLs, hPs]

/-- Invariant of a run with one flight load (decision hour `T`, departure
hour `T`, arrival hour `A`) and one purchase (decision hour `Tp`, purchase
hour `U`): after processing hours `0..n` the ledger holds exactly the
registered movements, every airport is materialized exactly through hour
`n`, and each stored stock equals the initial stock plus the load and
purchase contributions. -/
theorem bothRun_spec (env : Env) (O D ac : String) (apO apD : Airport)
    (acft : AircraftType) (T A : Nat) (kt : KitType) (req : Int) (q : Int)
    (ready : Nat) (K : KitType) (Q : Int) (Tp U : Nat)
    (hdist : env.airports.Pairwise (fun x y => x.code ≠ y.code))
    (hOmem : apO ∈ env.airports) (hOcode : apO.code = O)
    (hDmem : apD ∈ env.airports) (hDcode : apD.code = D)
    (hOD : O ≠ D)
    (hacft : env.findAircraft ac = some acft)
    (hhub : 0 < Q → ∃ hb ∈ env.airports, hb.code = "HUB1" ∧
      hb.is_hub = true)
    (hq_def : q = acceptedQty (acft.kit_capacity_per_class kt)
      (apO.initial_stock_per_kit kt) req)
    (hready_def : ready = min (A + apD.processing_time_hours kt) MAX_HOUR)
    (hTA : T + 1 ≤ A)
    (hAP : A + apD.processing_time_hours kt ≤ MAX_HOUR)
    (hTTp : T ≤ Tp) (hTpU : Tp ≤ U) :
    ∀ n, n ≤ MAX_HOUR →
    ∃ s, runScript env (bothScript env O D ac T A kt req K Q Tp U) n
        = some s ∧
      s.movements =
        (if T ≤ n ∧ 0 < q then
          [loadFlightMv O D T A kt q, loadProcMv D A ready kt q] else [])
        ++ (if Tp ≤ n ∧ 0 < Q then [purchMovement K Q U] else []) ∧
      (∀ a ∈ env.airports, ∀ h, h ≤ n →
        (s.nodes (a.code, h)).isSome = true) ∧
      (∀ a ∈ env.airports, ∀ h, n < h → s.nodes (a.code, h) = none) ∧
      (∀ a ∈ env.airports, ∀ h, h ≤ n → ∀ k,
        nodeStock s a.code h k =
          a.initial_stock_per_kit k + loadTerm O D T ready kt q a.code h k
          + purchTerm K Q Tp U a.code h k) := by
  have hMAX : MAX_HOUR = 719 := rfl
  have hAr : A ≤ ready := by
    rw [hready_def]
    omega
  have hTr : T < ready := by omega
  intro n
  induction n with
  | zero =>
    intro _
    have hinit_some : ∀ a ∈ env.airports,
        ((MatrixState.init env).nodes (a.code, 0)).isSome = true := by
      intro a ha
      have hfind := find_code_self env.airports hdist a ha
      simp [MatrixState.init, Env.findAirport, hfind]
    obtain ⟨s', L, happ, hmv, hneg, hframe, hsome, hval⟩ :=
      apply_cached env 0 (MatrixState.init env) (by decide) hinit_some
        (by intro m hm; cases hm)
    have hval0 : ∀ a ∈ env.airports, ∀ k,
        nodeStock s' a.code 0 k = a.initial_stock_per_kit k := by
      intro a ha k
      rw [hval a ha k]
      have hfind := find_code_self env.airports hdist a ha
      have hbase : nodeStock (MatrixState.init env) a.code 0 k =
          a.initial_stock_per_kit k := by
        simp [nodeStock, MatrixState.init, Env.findAirport, hfind]
      rw [hbase]
      simp [MatrixState.init]
    have hnone0 : ∀ a ∈ env.airports, ∀ h, 0 < h →
        s'.nodes (a.code, h) = none := by
      intro a ha h hh
      rw [hframe (a.code, h) (by omega)]
      simp [MatrixState.init]
      omega
    have hsome0 : ∀ a ∈ env.airports, ∀ h, h ≤ 0 →
        (s'.nodes (a.code, h)).isSome = true := by
      intro a ha h hh
      have : h = 0 := by omega
      subst this
      exact hsome a ha
    have hmv0 : s'.movements =
        (if T < 0 ∧ 0 < q then
          [loadFlightMv O D T A kt q, loadProcMv D A ready kt q] else [])
        ++ (if Tp < 0 ∧ 0 < Q then [purchMovement K Q U] else []) := by
      rw [hmv, if_neg (by rintro ⟨h1, -⟩; omega),
        if_neg (by rintro ⟨h1, -⟩; omega)]
      simp [MatrixState.init]
    have hvalStep0 : ∀ a ∈ env.airports, ∀ h, h ≤ 0 → ∀ k,
        nodeStock s' a.code h k =
          a.initial_stock_per_kit k + loadTerm O D T ready kt q a.code h k
          + purchTerm K Q Tp U a.code h k
          + (if 0 < q ∧ a.code = O ∧ k = kt ∧ T = 0 ∧ h = 0
             then q else 0) := by
      intro a ha h hh k
      have h0 : h = 0 := by omega
      subst h0
      rw [hval0 a ha k,
        purchTerm_zero_of_unreg K Q Tp U a.code 0 k hTpU (by omega),
        loadTerm_pre O D T ready kt q a.code 0 k hTr (by omega)]
      simp only [eq_self_iff_true, and_true]
      ring
    obtain ⟨s2, hs2run, hmv2, hsome2, hnone2, hval2⟩ :=
      bothScript_step env O D ac apO apD acft T A kt req q ready K Q Tp U
        0 s' hdist hOmem hOcode hDmem hDcode hOD hacft hhub hq_def
        hready_def hTA hAP hTTp hTpU hsome0 hnone0 hmv0 hvalStep0
    have hrun0 : runScript env (bothScript env O D ac T A kt req K Q Tp U) 0
        = bothScript env O D ac T A kt req K Q Tp U 0 s' := by
      simp only [runScript, happ, Option.bind_eq_bind, Option.some_bind]
    exact ⟨s2, by rw [hrun0]; exact hs2run, hmv2, hsome2, hnone2, hval2⟩
  | succ n ih =>
    intro hn1
    obtain ⟨s, hrun, hmvS, hsomeS, hnoneS, hvalS⟩ := ih (by omega)
    have hmova : ∀ m ∈ s.movements,
        (m.destination_hour = n + 1 →
          ∃ a ∈ env.airports, a.code = m.destination_airport) ∧
        (m.origin_hour = n + 1 →
          ∃ a ∈ env.airports, a.code = m.origin_airport) := by
      intro m hm
      rw [hmvS] at hm
      rcases List.mem_append.mp hm with hm1 | hm2
      · by_cases hreg : T ≤ n ∧ 0 < q
        · rw [if_pos hreg] at hm1
          rcases List.mem_cons.mp hm1 with rfl | hm1x
          · exact ⟨fun _ => ⟨apD, hDmem, hDcode⟩,
              fun _ => ⟨apO, hOmem, hOcode⟩⟩
          · rcases List.mem_singleton.mp hm1x with rfl
            exact ⟨fun _ => ⟨apD, hDmem, hDcode⟩,
              fun _ => ⟨apD, hDmem, hDcode⟩⟩
        · rw [if_neg hreg] at hm1
          cases hm1
      · by_cases hreg : Tp ≤ n ∧ 0 < Q
        · rw [if_pos hreg] at hm2
          rcases List.mem_singleton.mp hm2 with rfl
          obtain ⟨hb, hbm, hbc, -⟩ := hhub hreg.2
          exact ⟨fun _ => ⟨hb, hbm, hbc⟩, fun _ => ⟨hb, hbm, hbc⟩⟩
        · rw [if_neg hreg] at hm2
          cases hm2
    obtain ⟨s1, L, happ, hmv1f, hneg1, hframe1, hsome1f, hval1f, hlog1⟩ :=
      apply_fresh env n s hdist hn1
        (fun a ha => hnoneS a ha (n + 1) (by omega))
        (fun a ha => hsomeS a ha n (by omega)) hmova
    have hval1x : ∀ a ∈ env.airports, ∀ k,
        nodeStock s1 a.code (n + 1) k =
          a.initial_stock_per_kit k
          + loadTerm O D T ready kt q a.code (n + 1) k
          + purchTerm K Q Tp U a.code (n + 1) k
          + (if 0 < q ∧ a.code = O ∧ k = kt ∧ T = n + 1 ∧ n + 1 = n + 1
             then q else 0) := by
      intro a ha k
      have hdelta := bothLedger_delta O D T A ready kt q K Q Tp U a.code k n
        hOD hTA hAr hTpU
      rw [hval1f a ha k, hvalS a ha n (by omega) k, hmvS]
      simp only [eq_self_iff_true, and_true]
      linarith [hdelta]
    have hsomeStep : ∀ a ∈ env.airports, ∀ h, h ≤ n + 1 →
        (s1.nodes (a.code, h)).isSome = true := by
      intro a ha h hh
      rcases Nat.lt_or_ge h (n + 1) with hlt | hge
      · rw [hframe1 (a.code, h) (by omega)]
        exact hsomeS a ha h (by omega)
      · have : h = n + 1 := by omega
        subst this
        exact hsome1f a ha
    have hnoneStep : ∀ a ∈ env.airports, ∀ h, n + 1 < h →
        s1.nodes (a.code, h) = none := by
      intro a ha h hh
      rw [hframe1 (a.code, h) (by omega)]
      exact hnoneS a ha h (by omega)
    have hc1 : (T < n + 1 ∧ 0 < q) = (T ≤ n ∧ 0 < q) := by
      apply propext
      constructor
      · rintro ⟨h1, h2⟩
        exact ⟨by omega, h2⟩
      · rintro ⟨h1, h2⟩
        exact ⟨by omega, h2⟩
    have hc2 : (Tp < n + 1 ∧ 0 < Q) = (Tp ≤ n ∧ 0 < Q) := by
      apply propext
      constructor
      · rintro ⟨h1, h2⟩
        exact ⟨by omega, h2⟩
      · rintro ⟨h1, h2⟩
        exact ⟨by omega, h2⟩
    have hmv1s : s1.movements =
        (if T < n + 1 ∧ 0 < q then
          [loadFlightMv O D T A kt q, loadProcMv D A ready kt q] else [])
        ++ (if Tp < n + 1 ∧ 0 < Q then [purchMovement K Q U] else []) := by
      rw [hmv1f, hmvS]
      simp only [hc1, hc2]
    have hvalStep : ∀ a ∈ env.airports, ∀ h, h ≤ n + 1 → ∀ k,
        nodeStock s1 a.code h k =
          a.initial_stock_per_kit k + loadTerm O D T ready kt q a.code h k
          + purchTerm K Q Tp U a.code h k
          + (if 0 < q ∧ a.code = O ∧ k = kt ∧ T = n + 1 ∧ h = n + 1
             then q else 0) := by
      intro a ha h hh k
      rcases Nat.lt_or_ge h (n + 1) with hlt | hge
      · have hfr : nodeStock s1 a.code h k = nodeStock s a.code h k := by
          simp [nodeStock, hframe1 (a.code, h) (by omega)]
        rw [hfr, hvalS a ha h (by omega) k,
          if_neg (by rintro ⟨-, -, -, -, h5⟩; omega)]
        ring
      · have : h = n + 1 := by omega
        subst this
        exact hval1x a ha k
    obtain ⟨s2, hs2run, hmv2, hsome2, hnone2, hval2⟩ :=
      bothScript_step env O D ac apO apD acft T A kt req q ready K Q Tp U
        (n + 1) s1 hdist hOmem hOcode hDmem hDcode hOD hacft hhub hq_def
        hready_def hTA hAP hTTp hTpU hsomeStep hnoneStep hmv1s hvalStep
    have hrun1 : runScript env (bothScript env O D ac T A kt req K Q Tp U)
        (n + 1) = bothScript env O D ac T A kt req K Q Tp U (n + 1) s1 := by
      show (do
        let s ← runScript env (bothScript env O D ac T A kt req K Q Tp U) n
        let s1 ← apply_movements_for_hour env s (n + 1)
        bothScript env O D ac T A kt req K Q Tp U (n + 1) s1) = _
      rw [hrun]
      simp only [Option.bind_eq_bind, Option.some_bind]
      rw [happ]
      simp only [Option.some_bind]
    exact ⟨s2, by rw [hrun1]; exact hs2run, hmv2, hsome2, hnone2, hval2⟩

end LoadScenario

section ClaimC2C3

/-- The load contribution split into constant-value single-code
indicators, suited to summation over the airport list. -/
theorem loadTerm_split (O D : String) (T ready : Nat) (kt : KitType)
    (q : Int) (c : String) (h : Nat) (k : KitType) :
    loadTerm O D T ready kt q c h k =
      (if c = O then (if 0 < q ∧ k = kt ∧ T ≤ h then -q else 0) else 0)
      + (if c = D then (if 0 < q ∧ k = kt ∧ ready ≤ h then q else 0)
         else 0) := by
  by_cases hq1 : 0 < q <;> by_cases hk : k = kt <;> by_cases hcO : c = O <;>
    by_cases hcD : c = D <;> by_cases hT : T ≤ h <;>
      by_cases hr : ready ≤ h <;>
        simp [loadTerm, hq1, hk, hcO, hcD, hT, hr]

/-- The purchase contribution split into constant-value single-code
indicators, suited to summation over the airport list. -/
theorem purchTerm_split (K : KitType) (Q : Int) (Tp U : Nat) (c : String)
    (h : Nat) (k : KitType) :
    purchTerm K Q Tp U c h k =
      (if c = "HUB1" then
        (if 0 < Q ∧ k = K ∧ U ≤ h ∧ Tp < U then -Q else 0) else 0)
      + (if c = "HUB1" then
        (if 0 < Q ∧ k = K ∧
            min (U + K.replacement_lead_time_hours) MAX_HOUR ≤ h ∧
            Tp < min (U + K.replacement_lead_time_hours) MAX_HOUR
         then Q else 0) else 0) := by
  by_cases hQ1 : 0 < Q <;> by_cases hk : k = K <;>
    by_cases hc : c = "HUB1" <;> by_cases hA : U ≤ h ∧ Tp < U <;>
      by_cases hB : min (U + K.replacement_lead_time_hours) MAX_HOUR ≤ h ∧
          Tp < min (U + K.replacement_lead_time_hours) MAX_HOUR <;>
        simp [purchTerm, hQ1, hk, hc, hA, hB]

/-- Summing a constant-value single-code indicator over a distinct-code
airport list containing an airport with that code yields the value. -/
theorem sum_single_code (l : List Airport) (x : Airport) (c : String)
    (v : Int) (hd : l.Pairwise (fun a b => a.code ≠ b.code)) (hx : x ∈ l)
    (hc : x.code = c) :
    (l.map (fun a => if a.code = c then v else 0)).sum = v := by
  induction l with
  | nil => cases hx
  | cons b t ih =>
    rcases List.mem_cons.mp hx with rfl | hx2
    · simp only [List.map_cons, List.sum_cons, if_pos hc]
      have hz : (t.map (fun a => if a.code = c then v else 0)).sum = 0 := by
        apply List.sum_eq_zero
        intro y hy
        obtain ⟨a, ha, rfl⟩ := List.mem_map.mp hy
        rw [if_neg (by
          intro hac
          exact ((List.pairwise_cons.mp hd).1 a ha) (hc.trans hac.symm))]
      rw [hz]
      ring
    · have hbc : ¬ b.code = c := by
        intro hbc
        exact ((List.pairwise_cons.mp hd).1 x hx2) (hbc.trans hc.symm)
      simp only [List.map_cons, List.sum_cons, if_neg hbc]
      rw [ih (List.pairwise_cons.mp hd).2 hx2]
      ring

/-- Sums over airports distribute over pointwise addition. -/
theorem map_sum_add (l : List Airport) (f g : Airport → Int) :
    (l.map (fun a => f a + g a)).sum = (l.map f).sum + (l.map g).sum := by
  induction l with
  | nil => simp
  | cons b t ih =>
    simp only [List.map_cons, List.sum_cons, ih]
    ring

/-- C2: for an accepted flight load of `q > 0` kits of type `kt`, decided
and departing at hour `T`, arriving at hour `A` strictly after `T`, at a
destination whose processing time for `kt` is `P` with `A + P` within the
horizon, under the hourly discipline (each hour applied exactly once in
increasing order, the load scheduled at its decision hour after that hour
is applied) the destination\'s stored stock of `kt` equals its initial
value at every hour strictly before `A + P` and equals it plus `q` from
hour `A + P` on — the increase by `q` happens exactly at `A + P`, not at
`A + P - 1` and not at `A + P + 1`, for every processing time `P`, in
particular `P` in `{0, 1, 2}`.  (The original claim, with no assumption
that the arrival hour lies strictly after the decision hour, fails: see
the counterexample.) -/
theorem C2_processing_delay (env : Env) (O D ac : String) (apO apD : Airport)
    (acft : AircraftType) (T A : Nat) (kt : KitType) (req : Int) (q : Int)
    (n : Nat)
    (hdist : env.airports.Pairwise (fun x y => x.code ≠ y.code))
    (hOmem : apO ∈ env.airports) (hOcode : apO.code = O)
    (hDmem : apD ∈ env.airports) (hDcode : apD.code = D)
    (hOD : O ≠ D)
    (hacft : env.findAircraft ac = some acft)
    (hq_def : q = acceptedQty (acft.kit_capacity_per_class kt)
      (apO.initial_stock_per_kit kt) req)
    (hq0 : 0 < q)
    (hTA : T + 1 ≤ A)
    (hAP : A + apD.processing_time_hours kt ≤ MAX_HOUR)
    (hn : n ≤ MAX_HOUR) :
    ∃ s, runScript env (bothScript env O D ac T A kt req kt 0 T T) n
        = some s ∧
      ∀ h, h ≤ n → nodeStock s D h kt =
        apD.initial_stock_per_kit kt +
          (if A + apD.processing_time_hours kt ≤ h then q else 0) := by
  obtain ⟨s, hrun, hmv, hsome, hnone, hval⟩ :=
    bothRun_spec env O D ac apO apD acft T A kt req q
      (min (A + apD.processing_time_hours kt) MAX_HOUR) kt 0 T T
      hdist hOmem hOcode hDmem hDcode hOD hacft
      (fun hq => absurd hq (by omega)) hq_def rfl hTA hAP (le_refl T)
      (le_refl T) n hn
  have hM : MAX_HOUR = 719 := rfl
  have hready : min (A + apD.processing_time_hours kt) MAX_HOUR =
      A + apD.processing_time_hours kt := by omega
  refine ⟨s, hrun, ?_⟩
  intro h hh
  have hv := hval apD hDmem h hh kt
  rw [hDcode] at hv
  rw [hv]
  have hpz : purchTerm kt 0 T T D h kt = 0 := by
    unfold purchTerm
    rw [if_neg (by rintro ⟨h1, -⟩; omega)]
  have hlt : loadTerm O D T (min (A + apD.processing_time_hours kt)
      MAX_HOUR) kt q D h kt =
      (if A + apD.processing_time_hours kt ≤ h then q else 0) := by
    unfold loadTerm
    have hDO : (D = O) = False := eq_false (fun h1 => hOD h1.symm)
    rw [hready]
    by_cases hr : A + apD.processing_time_hours kt ≤ h
    · simp [hq0, hDO, hr]
    · simp [hq0, hDO, hr]
  rw [hpz, hlt]
  ring

/-- Witness for C2 at a concrete input: 5 economy kits loaded at decision
hour 0 on a flight arriving at hour 1, destination processing time 1, so
the destination first holds the kits at hour 2; run horizon 5 hours. -/
theorem C2_processing_delay_witness :
    ∃ s, runScript c1Env
        (bothScript c1Env "HUB1" "OUT1" "T1" 0 1 KitType.D_ECONOMY 5
          KitType.D_ECONOMY 0 0 0) 5 = some s ∧
      ∀ h, h ≤ 5 → nodeStock s "OUT1" h KitType.D_ECONOMY =
        c1Out.initial_stock_per_kit KitType.D_ECONOMY +
          (if 1 + c1Out.processing_time_hours KitType.D_ECONOMY ≤ h
           then 5 else 0) :=
  C2_processing_delay c1Env "HUB1" "OUT1" "T1" c1Hub c1Out c1Acft 0 1
    KitType.D_ECONOMY 5 5 5 (by decide) (by simp [c1Env]) rfl
    (by simp [c1Env]) rfl (by decide) rfl (by decide) (by decide)
    (by decide) (by decide) (by decide)

/-- C3: conservation, amended.  Under the hourly discipline, with one
flight load (decision/departure hour `T`, arrival `A`, `q` accepted kits of
`kt`) and one purchase (decision hour `Tp < MAX_HOUR`, purchase hour `Tp`,
`Q` kits of `K`), the total stock across all airports at hour `h` equals
the initial total, plus the purchase quantity once its ready hour has
landed (`ready ≤ h`), minus the load quantity while it is in flight or in
processing (`T ≤ h < A + P`).  FLIGHT and PROCESSING movements do remove
kits from the airport totals for the whole in-pipeline window, refuting the
original claim that they never affect the total. -/
theorem C3_conservation (env : Env) (O D ac : String) (apO apD hub : Airport)
    (acft : AircraftType) (T A : Nat) (kt : KitType) (req : Int) (q : Int)
    (K : KitType) (Q : Int) (Tp : Nat) (n : Nat)
    (hdist : env.airports.Pairwise (fun x y => x.code ≠ y.code))
    (hOmem : apO ∈ env.airports) (hOcode : apO.code = O)
    (hDmem : apD ∈ env.airports) (hDcode : apD.code = D)
    (hOD : O ≠ D)
    (hacft : env.findAircraft ac = some acft)
    (hbmem : hub ∈ env.airports) (hbcode : hub.code = "HUB1")
    (hbhub : hub.is_hub = true)
    (hq_def : q = acceptedQty (acft.kit_capacity_per_class kt)
      (apO.initial_stock_per_kit kt) req)
    (hTA : T + 1 ≤ A)
    (hAP : A + apD.processing_time_hours kt ≤ MAX_HOUR)
    (hTTp : T ≤ Tp) (hTpM : Tp < MAX_HOUR)
    (hn : n ≤ MAX_HOUR) :
    ∃ s, runScript env (bothScript env O D ac T A kt req K Q Tp Tp) n
        = some s ∧
      ∀ h, h ≤ n → ∀ k,
        totalStock env s h k =
          (env.airports.map (fun a => a.initial_stock_per_kit k)).sum
          + (if 0 < Q ∧ k = K ∧
              min (Tp + K.replacement_lead_time_hours) MAX_HOUR ≤ h
             then Q else 0)
          - (if 0 < q ∧ k = kt ∧ T ≤ h ∧
              h < A + apD.processing_time_hours kt then q else 0) := by
  have hM : MAX_HOUR = 719 := rfl
  obtain ⟨s, hrun, hmv, hsome, hnone, hval⟩ :=
    bothRun_spec env O D ac apO apD acft T A kt req q
      (min (A + apD.processing_time_hours kt) MAX_HOUR) K Q Tp Tp
      hdist hOmem hOcode hDmem hDcode hOD hacft
      (fun _ => ⟨hub, hbmem, hbcode, hbhub⟩) hq_def rfl hTA hAP hTTp
      (le_refl Tp) n hn
  have hready : min (A + apD.processing_time_hours kt) MAX_HOUR =
      A + apD.processing_time_hours kt := by omega
  refine ⟨s, hrun, ?_⟩
  intro h hh k
  unfold totalStock
  have hmapeq : env.airports.map (fun a => nodeStock s a.code h k) =
      env.airports.map (fun a => a.initial_stock_per_kit k
        + ((if a.code = O then (if 0 < q ∧ k = kt ∧ T ≤ h then -q else 0)
            else 0)
          + (if a.code = D then
              (if 0 < q ∧ k = kt ∧
                min (A + apD.processing_time_hours kt) MAX_HOUR ≤ h
               then q else 0) else 0))
        + ((if a.code = "HUB1" then
              (if 0 < Q ∧ k = K ∧ Tp ≤ h ∧ Tp < Tp then -Q else 0) else 0)
          + (if a.code = "HUB1" then
              (if 0 < Q ∧ k = K ∧
                  min (Tp + K.replacement_lead_time_hours) MAX_HOUR ≤ h ∧
                  Tp < min (Tp + K.replacement_lead_time_hours) MAX_HOUR
               then Q else 0) else 0))) := by
    apply List.map_congr_left
    intro a ha
    rw [hval a ha h hh k, loadTerm_split, purchTerm_split]
  rw [hmapeq,
    map_sum_add env.airports
      (fun a => a.initial_stock_per_kit k
        + ((if a.code = O then (if 0 < q ∧ k = kt ∧ T ≤ h then -q else 0)
            else 0)
          + (if a.code = D then
              (if 0 < q ∧ k = kt ∧
                min (A + apD.processing_time_hours kt) MAX_HOUR ≤ h
               then q else 0) else 0)))
      (fun a =>
        (if a.code = "HUB1" then
            (if 0 < Q ∧ k = K ∧ Tp ≤ h ∧ Tp < Tp then -Q else 0) else 0)
        + (if a.code = "HUB1" then
            (if 0 < Q ∧ k = K ∧
                min (Tp + K.replacement_lead_time_hours) MAX_HOUR ≤ h ∧
                Tp < min (Tp + K.replacement_lead_time_hours) MAX_HOUR
             then Q else 0) else 0)),
    map_sum_add env.airports
      (fun a => a.initial_stock_per_kit k)
      (fun a =>
        (if a.code = O then (if 0 < q ∧ k = kt ∧ T ≤ h then -q else 0)
         else 0)
        + (if a.code = D then
            (if 0 < q ∧ k = kt ∧
              min (A + apD.processing_time_hours kt) MAX_HOUR ≤ h
             then q else 0) else 0)),
    map_sum_add env.airports
      (fun a => if a.code = O then
        (if 0 < q ∧ k = kt ∧ T ≤ h then -q else 0) else 0)
      (fun a => if a.code = D then
        (if 0 < q ∧ k = kt ∧
          min (A + apD.processing_time_hours kt) MAX_HOUR ≤ h
         then q else 0) else 0),
    map_sum_add env.airports
      (fun a => if a.code = "HUB1" then
        (if 0 < Q ∧ k = K ∧ Tp ≤ h ∧ Tp < Tp then -Q else 0) else 0)
      (fun a => if a.code = "HUB1" then
        (if 0 < Q ∧ k = K ∧
            min (Tp + K.replacement_lead_time_hours) MAX_HOUR ≤ h ∧
            Tp < min (Tp + K.replacement_lead_time_hours) MAX_HOUR
         then Q else 0) else 0),
    sum_single_code env.airports apO O _ hdist hOmem hOcode,
    sum_single_code env.airports apD D _ hdist hDmem hDcode,
    sum_single_code env.airports hub "HUB1" _ hdist hbmem hbcode,
    sum_single_code env.airports hub "HUB1" _ hdist hbmem hbcode]
  have hlead : Tp < min (Tp + K.replacement_lead_time_hours) MAX_HOUR := by
    have := lead_pos K
    omega
  have hp1 : (if 0 < Q ∧ k = K ∧ Tp ≤ h ∧ Tp < Tp then -Q else 0)
      = 0 := by
    rw [if_neg (by rintro ⟨-, -, -, h4⟩; omega)]
  have hp2 : (if 0 < Q ∧ k = K ∧
      min (Tp + K.replacement_lead_time_hours) MAX_HOUR ≤ h ∧
      Tp < min (Tp + K.replacement_lead_time_hours) MAX_HOUR then Q else 0)
      = (if 0 < Q ∧ k = K ∧
          min (Tp + K.replacement_lead_time_hours) MAX_HOUR ≤ h
         then Q else 0) := by
    by_cases hc : 0 < Q ∧ k = K ∧
        min (Tp + K.replacement_lead_time_hours) MAX_HOUR ≤ h
    · rw [if_pos ⟨hc.1, hc.2.1, hc.2.2, hlead⟩, if_pos hc]
    · rw [if_neg (by rintro ⟨h1, h2, h3, -⟩; exact hc ⟨h1, h2, h3⟩),
        if_neg hc]
  have hload : (if 0 < q ∧ k = kt ∧ T ≤ h then -q else 0)
      + (if 0 < q ∧ k = kt ∧
          min (A + apD.processing_time_hours kt) MAX_HOUR ≤ h
         then q else 0)
      = -(if 0 < q ∧ k = kt ∧ T ≤ h ∧
          h < A + apD.processing_time_hours kt then q else 0) := by
    rw [hready]
    by_cases hq1 : 0 < q
    · by_cases hk : k = kt
      · have e1 : (0 < q ∧ k = kt ∧ T ≤ h) = (T ≤ h) := by
          apply propext
          constructor
          · rintro ⟨-, -, h3⟩
            exact h3
          · intro h3
            exact ⟨hq1, hk, h3⟩
        have e2 : (0 < q ∧ k = kt ∧
            A + apD.processing_time_hours kt ≤ h) =
            (A + apD.processing_time_hours kt ≤ h) := by
          apply propext
          constructor
          · rintro ⟨-, -, h3⟩
            exact h3
          · intro h3
            exact ⟨hq1, hk, h3⟩
        have e3 : (0 < q ∧ k = kt ∧ T ≤ h ∧
            h < A + apD.processing_time_hours kt) =
            (T ≤ h ∧ h < A + apD.processing_time_hours kt) := by
          apply propext
          constructor
          · rintro ⟨-, -, h3⟩
            exact h3
          · intro h3
            exact ⟨hq1, hk, h3⟩
        simp only [e1, e2, e3]
        split_ifs <;> omega
      · have e0 : ∀ (P : Prop), (0 < q ∧ k = kt ∧ P) = False :=
          fun P => eq_false (by rintro ⟨-, h2, -⟩; exact hk h2)
        simp only [e0, if_false]
        ring
    · have e0 : ∀ (P : Prop), (0 < q ∧ k = kt ∧ P) = False :=
        fun P => eq_false (by rintro ⟨h1, -⟩; exact hq1 h1)
      simp only [e0, if_false]
      ring
  rw [hp1, hp2]
  linarith [hload]

/-- Witness for C3 at a concrete input: 5 economy kits loaded at hour 0
(arrival 1, processing 1) and 7 economy kits purchased at decision hour 2,
run horizon 5 hours. -/
theorem C3_conservation_witness :
    ∃ s, runScript c1Env
        (bothScript c1Env "HUB1" "OUT1" "T1" 0 1 KitType.D_ECONOMY 5
          KitType.D_ECONOMY 7 2 2) 5 = some s ∧
      ∀ h, h ≤ 5 → ∀ k,
        totalStock c1Env s h k =
          (c1Env.airports.map (fun a => a.initial_stock_per_kit k)).sum
          + (if (0 : Int) < 7 ∧ k = KitType.D_ECONOMY ∧
              min (2 + KitType.D_ECONOMY.replacement_lead_time_hours)
                MAX_HOUR ≤ h
             then 7 else 0)
          - (if (0 : Int) < 5 ∧ k = KitType.D_ECONOMY ∧ 0 ≤ h ∧
              h < 1 + c1Out.processing_time_hours KitType.D_ECONOMY
             then 5 else 0) :=
  C3_conservation c1Env "HUB1" "OUT1" "T1" c1Hub c1Out c1Hub c1Acft 0 1
    KitType.D_ECONOMY 5 5 KitType.D_ECONOMY 7 2 5 (by decide)
    (by simp [c1Env]) rfl (by simp [c1Env]) rfl (by decide) rfl
    (by simp [c1Env]) rfl rfl (by decide) (by decide) (by decide)
    (by decide) (by decide) (by decide)

end ClaimC2C3


section ClaimC9

/-- `passengers.get(kit, 0)` on an association list: the value of the
first matching key, defaulting to `0`. -/
def pGet (l : List (KitType × Int)) (k : KitType) : Int :=
  match l.find? (fun p => p.1 = k) with
  | some p => p.2
  | none => 0

/-- `LookaheadStrategy._passengers_for`: the actual passenger map if
non-empty, else the planned one if non-empty, else empty
(`flight.actual_passengers or flight.planned_passengers or \x7b\x7d`). -/
def passengers_for (f : FlightInstance) (kit : KitType) : Int :=
  pGet (if f.actual_passengers ≠ [] then f.actual_passengers
    else if f.planned_passengers ≠ [] then f.planned_passengers else [])
    kit

/-- One kit-loop step of `_forecast_demand` for one flight: the kit is
skipped when the departure lies beyond the kit\'s horizon limit or the
passenger count is non-positive; otherwise the count is added to
`demand[origin][kit]`, raising `KeyError` (`none`) when the origin is not
among the matrix airports that key the demand table. -/
def forecastKit (env : Env) (H : Nat) (horizon : KitType → Nat)
    (f : FlightInstance) (d : String → KitType → Int) (kit : KitType) :
    Option (String → KitType → Int) :=
  if f.departure_global_hour > H + horizon kit then some d
  else if passengers_for f kit ≤ 0 then some d
  else if env.airports.any (fun a => a.code = f.origin) then
    some (fun c k => if c = f.origin ∧ k = kit
      then d c k + passengers_for f kit else d c k)
  else none

/-- Per-flight body of `_forecast_demand`: landed flights and flights with
departure hour at or before the decision hour are skipped; otherwise the
kit loop runs over all kit types in declaration order. -/
def forecastFlight (env : Env) (H : Nat) (horizon : KitType → Nat)
    (d : String → KitType → Int) (f : FlightInstance) :
    Option (String → KitType → Int) :=
  if f.status = FlightStatus.LANDED then some d
  else if f.departure_global_hour ≤ H then some d
  else KitType.all.foldlM (forecastKit env H horizon f) d

/-- `LookaheadStrategy._forecast_demand`: per-airport, per-kit demand
accumulated over the flight list, starting from the all-zero table. -/
def forecast_demand (env : Env) (flights : List FlightInstance) (H : Nat)
    (horizon : KitType → Nat) : Option (String → KitType → Int) :=
  flights.foldlM (forecastFlight env H horizon) (fun _ _ => 0)

/-- The spec\'s formula for C9, following its words: the sum of
`K`-passenger counts over all non-landed flights departing airport `c`
whose departure hour lies within the CLOSED interval `[H, H + L]`. -/
def specDemandClosed (flights : List FlightInstance) (c : String)
    (K : KitType) (H L : Nat) : Int :=
  ((flights.filter (fun f => f.status ≠ FlightStatus.LANDED ∧
    f.origin = c ∧ H ≤ f.departure_global_hour ∧
    f.departure_global_hour ≤ H + L)).map
      (fun f => passengers_for f K)).sum

/-- Characterization of the kit loop of `_forecast_demand` on a
duplicate-free kit list. -/
theorem forecastKit_fold (env : Env) (H : Nat) (horizon : KitType → Nat)
    (f : FlightInstance) :
    ∀ (ks : List KitType), ks.Nodup → ∀ d0 d1,
      ks.foldlM (forecastKit env H horizon f) d0 = some d1 →
      ∀ c k, d1 c k = d0 c k +
        (if k ∈ ks ∧ c = f.origin ∧
            f.departure_global_hour ≤ H + horizon k ∧
            0 < passengers_for f k then passengers_for f k else 0) := by
  intro ks
  induction ks with
  | nil =>
    intro _ d0 d1 hfold c k
    rw [List.foldlM_nil] at hfold
    cases hfold
    rw [if_neg (by rintro ⟨h1, -⟩; cases h1)]
    ring
  | cons k0 ks ih =>
    intro hnd d0 d1 hfold c k
    have hnin : k0 ∉ ks := (List.nodup_cons.mp hnd).1
    have hndt : ks.Nodup := (List.nodup_cons.mp hnd).2
    rw [List.foldlM_cons] at hfold
    unfold forecastKit at hfold
    by_cases hh : f.departure_global_hour > H + horizon k0
    · rw [if_pos hh] at hfold
      simp only [Option.bind_eq_bind, Option.some_bind] at hfold
      rw [ih hndt d0 d1 hfold c k]
      by_cases hk : k = k0
      · subst hk
        have e1 : (k ∈ ks ∧ c = f.origin ∧
            f.departure_global_hour ≤ H + horizon k ∧
            0 < passengers_for f k) = False :=
          eq_false (by rintro ⟨h1, -⟩; exact hnin h1)
        have e2 : (k ∈ k :: ks ∧ c = f.origin ∧
            f.departure_global_hour ≤ H + horizon k ∧
            0 < passengers_for f k) = False :=
          eq_false (by rintro ⟨-, -, h3, -⟩; omega)
        simp only [e1, e2, if_false]
      · have hmm : (k ∈ k0 :: ks) = (k ∈ ks) := by
          apply propext
          constructor
          · intro h1
            exact (List.mem_cons.mp h1).resolve_left hk
          · intro h1
            exact List.mem_cons_of_mem _ h1
        simp only [hmm]
    · rw [if_neg hh] at hfold
      by_cases hq : passengers_for f k0 ≤ 0
      · rw [if_pos hq] at hfold
        simp only [Option.bind_eq_bind, Option.some_bind] at hfold
        rw [ih hndt d0 d1 hfold c k]
        by_cases hk : k = k0
        · subst hk
          have e1 : (k ∈ ks ∧ c = f.origin ∧
              f.departure_global_hour ≤ H + horizon k ∧
              0 < passengers_for f k) = False :=
            eq_false (by rintro ⟨h1, -⟩; exact hnin h1)
          have e2 : (k ∈ k :: ks ∧ c = f.origin ∧
              f.departure_global_hour ≤ H + horizon k ∧
              0 < passengers_for f k) = False :=
            eq_false (by rintro ⟨-, -, -, h4⟩; omega)
          simp only [e1, e2, if_false]
        · have hmm : (k ∈ k0 :: ks) = (k ∈ ks) := by
            apply propext
            constructor
            · intro h1
              exact (List.mem_cons.mp h1).resolve_left hk
            · intro h1
              exact List.mem_cons_of_mem _ h1
          simp only [hmm]
      · rw [if_neg hq] at hfold
        by_cases hm : env.airports.any (fun a => a.code = f.origin) = true
        · rw [if_pos hm] at hfold
          simp only [Option.bind_eq_bind, Option.some_bind] at hfold
          rw [ih hndt _ d1 hfold c k]
          by_cases hk : k = k0
          · subst hk
            have e1 : (k ∈ ks ∧ c = f.origin ∧
                f.departure_global_hour ≤ H + horizon k ∧
                0 < passengers_for f k) = False :=
              eq_false (by rintro ⟨h1, -⟩; exact hnin h1)
            by_cases hc : c = f.origin
            · rw [if_pos (⟨hc, rfl⟩ : c = f.origin ∧ k = k)]
              have eT : (k ∈ k :: ks ∧ c = f.origin ∧
                  f.departure_global_hour ≤ H + horizon k ∧
                  0 < passengers_for f k) = True :=
                eq_true ⟨List.mem_cons_self k ks, hc, by omega, by omega⟩
              simp only [e1, eT, if_true, if_false]
              ring
            · rw [if_neg (fun hx => hc hx.1)]
              have eT : (k ∈ k :: ks ∧ c = f.origin ∧
                  f.departure_global_hour ≤ H + horizon k ∧
                  0 < passengers_for f k) = False :=
                eq_false (by rintro ⟨-, h2, -⟩; exact hc h2)
              simp only [e1, eT, if_false]
          · rw [if_neg (fun hx => hk hx.2)]
            have hmm : (k ∈ k0 :: ks) = (k ∈ ks) := by
              apply propext
              constructor
              · intro h1
                exact (List.mem_cons.mp h1).resolve_left hk
              · intro h1
                exact List.mem_cons_of_mem _ h1
            simp only [hmm]
        · rw [if_neg hm] at hfold
          simp only [Option.bind_eq_bind, Option.none_bind] at hfold
          cases hfold

/-- Characterization of `_forecast_demand`\'s flight loop: each processed
flight contributes its kit-`k` passenger count to `demand[c][k]` exactly
when it is not landed, departs from `c`, departs strictly after the
decision hour and within the kit\'s horizon limit, and has a positive
count. -/
theorem forecastFlight_fold (env : Env) (H : Nat) (horizon : KitType → Nat) :
    ∀ (fs : List FlightInstance) (d0 d1 : String → KitType → Int),
      fs.foldlM (forecastFlight env H horizon) d0 = some d1 →
      ∀ c k, d1 c k = d0 c k +
        ((fs.filter (fun f => f.status ≠ FlightStatus.LANDED ∧
          f.origin = c ∧ H < f.departure_global_hour ∧
          f.departure_global_hour ≤ H + horizon k ∧
          0 < passengers_for f k)).map
            (fun f => passengers_for f k)).sum := by
  intro fs
  induction fs with
  | nil =>
    intro d0 d1 hfold c k
    rw [List.foldlM_nil] at hfold
    cases hfold
    simp
  | cons f fs ih =>
    intro d0 d1 hfold c k
    rw [List.foldlM_cons] at hfold
    unfold forecastFlight at hfold
    by_cases hst : f.status = FlightStatus.LANDED
    · rw [if_pos hst] at hfold
      simp only [Option.bind_eq_bind, Option.some_bind] at hfold
      rw [ih d0 d1 hfold c k, List.filter_cons,
        if_neg (fun hx => (of_decide_eq_true hx).1 hst)]
    · rw [if_neg hst] at hfold
      by_cases hdep : f.departure_global_hour ≤ H
      · rw [if_pos hdep] at hfold
        simp only [Option.bind_eq_bind, Option.some_bind] at hfold
        rw [ih d0 d1 hfold c k, List.filter_cons,
          if_neg (fun hx => by
            have h5 := (of_decide_eq_true hx).2.2.1
            omega)]
      · rw [if_neg hdep] at hfold
        simp only [Option.bind_eq_bind] at hfold
        obtain ⟨d2, hd2, hrest⟩ := Option.bind_eq_some.mp hfold
        have hkit := forecastKit_fold env H horizon f KitType.all
          (by decide) d0 d2 hd2 c k
        have hmem : k ∈ KitType.all := by cases k <;> decide
        rw [ih d2 d1 hrest c k, hkit]
        by_cases hP : f.status ≠ FlightStatus.LANDED ∧ f.origin = c ∧
            H < f.departure_global_hour ∧
            f.departure_global_hour ≤ H + horizon k ∧
            0 < passengers_for f k
        · obtain ⟨-, hc, -, hhor, hqp⟩ := hP
          have eT : (k ∈ KitType.all ∧ c = f.origin ∧
              f.departure_global_hour ≤ H + horizon k ∧
              0 < passengers_for f k) = True :=
            eq_true ⟨hmem, hc.symm, hhor, hqp⟩
          rw [List.filter_cons, if_pos (decide_eq_true
            ⟨hst, hc, by omega, hhor, hqp⟩)]
          simp only [eT, if_true, List.map_cons, List.sum_cons]
          ring
        · have eF : (k ∈ KitType.all ∧ c = f.origin ∧
              f.departure_global_hour ≤ H + horizon k ∧
              0 < passengers_for f k) = False :=
            eq_false (by
              rintro ⟨-, hc2, hh2, hq2⟩
              exact hP ⟨hst, hc2.symm, by omega, hh2, hq2⟩)
          rw [List.filter_cons, if_neg (fun hx => hP (of_decide_eq_true hx))]
          simp only [eF, if_false]
          ring

/-- C9: amended demand formula.  When `_forecast_demand` succeeds, the
demand it reports for airport `c` and kit `k` is the sum of `k`-passenger
counts over the non-landed flights departing `c` whose departure hour lies
in the HALF-OPEN interval `(H, H + L_k]` — strictly after the decision
hour `H`, not the closed interval `[H, H + L_k]` of the original claim —
counting only positive per-kit passenger counts. -/
theorem C9_forecast_demand (env : Env) (flights : List FlightInstance)
    (H : Nat) (horizon : KitType → Nat) (d : String → KitType → Int)
    (hd : forecast_demand env flights H horizon = some d)
    (c : String) (k : KitType) :
    d c k = ((flights.filter (fun f =>
        f.status ≠ FlightStatus.LANDED ∧ f.origin = c ∧
        H < f.departure_global_hour ∧
        f.departure_global_hour ≤ H + horizon k ∧
        0 < passengers_for f k)).map
          (fun f => passengers_for f k)).sum := by
  have hchar := forecastFlight_fold env H horizon flights
    (fun _ _ => 0) d hd c k
  rw [hchar]
  ring

/-- A flight departing exactly at the decision hour `H = 5` with 5 planned
economy passengers. -/
def c9xFlight : FlightInstance where
  flight_id := "F9"
  origin := "OUT1"
  destination := "HUB1"
  aircraft_type_code := "T1"
  planned_departure := (0, 5)
  planned_arrival := (0, 7)
  planned_passengers := [(KitType.D_ECONOMY, 5)]

/-- A flight departing at hour 6, strictly inside the horizon window, with
5 planned economy passengers. -/
def c9wFlight : FlightInstance where
  flight_id := "F9W"
  origin := "OUT1"
  destination := "HUB1"
  aircraft_type_code := "T1"
  planned_departure := (0, 6)
  planned_arrival := (0, 8)
  planned_passengers := [(KitType.D_ECONOMY, 5)]

/-- Witness for C9 at a concrete input: two flights, one departing at hour
6 (counted) and one at the decision hour 5 (not counted), horizon 12. -/
theorem C9_forecast_demand_witness :
    (forecast_demand c1Env [c9wFlight, c9xFlight] 5
        (fun _ => 12)).getD (fun _ _ => 0) "OUT1" KitType.D_ECONOMY =
      (([c9wFlight, c9xFlight].filter (fun f =>
        f.status ≠ FlightStatus.LANDED ∧ f.origin = "OUT1" ∧
        5 < f.departure_global_hour ∧
        f.departure_global_hour ≤ 5 + 12 ∧
        0 < passengers_for f KitType.D_ECONOMY)).map
          (fun f => passengers_for f KitType.D_ECONOMY)).sum :=
  C9_forecast_demand c1Env [c9wFlight, c9xFlight] 5 (fun _ => 12)
    ((forecast_demand c1Env [c9wFlight, c9xFlight] 5
      (fun _ => 12)).getD (fun _ _ => 0))
    (by rfl) "OUT1" KitType.D_ECONOMY

/-- C9 counterexample: a non-landed flight with 5 economy passengers
departing exactly at the decision hour `H = 5` lies inside the claim\'s
closed interval `[H, H + L]` and so should contribute 5 to the demand at
its origin, but `_forecast_demand` skips it (`dep_hour <= current` is
rejected) and reports 0. -/
theorem C9_counterexample :
    ((forecast_demand c1Env [c9xFlight] 5 (fun _ => 12)).map
        (fun d => d "OUT1" KitType.D_ECONOMY)) = some 0 ∧
    specDemandClosed [c9xFlight] "OUT1" KitType.D_ECONOMY 5 12 = 5 ∧
    ((forecast_demand c1Env [c9xFlight] 5 (fun _ => 12)).map
        (fun d => d "OUT1" KitType.D_ECONOMY)) ≠
      some (specDemandClosed [c9xFlight] "OUT1" KitType.D_ECONOMY 5 12) :=
  ⟨by decide, by decide, by decide⟩

end ClaimC9

end Rotables
